import Mathlib

/-!
Verification of the libiio XML backend (src/xml.c).

The file shallowly embeds the C code: each C `for` loop becomes a structurally
recursive Lean function over the corresponding list, each fallible C function
returns `Except PErr`, and the unguarded read of a property value
(`attr->children->content`, which dereferences NULL when the property carries
no value node) is modelled by the distinguished error `PErr.crash`.
-/

deriving instance DecidableEq for Except

/-- Outcome tag for fallible C code: `crash` models an undefined null
dereference (reading a value node that is absent), `fail` models an orderly
error return (a NULL pointer or -1 result code). -/
inductive PErr where
  | crash
  | fail
  deriving DecidableEq, Repr

/-- One property of a parsed element node (an `xmlAttr`): the property name
and the content of its value node. `content = none` models
`attr->children == NULL`, which libxml2 produces for a property whose value
is empty. -/
structure XmlAttr where
  name : String
  content : Option String
  deriving DecidableEq, Repr

/-- A parsed element node (an `xmlNode`): tag name, property list
(`n->properties`, in document order) and child list (`n->children`, in
document order; text nodes appear as nodes whose tag is "text"). -/
inductive XmlNode where
  | node : String → List XmlAttr → List XmlNode → XmlNode

/-- Tag name of a node (`n->name`). -/
def XmlNode.name : XmlNode → String
  | .node t _ _ => t

/-- Property list of a node (`n->properties`). -/
def XmlNode.properties : XmlNode → List XmlAttr
  | .node _ ps _ => ps

/-- Child list of a node (`n->children`). -/
def XmlNode.children : XmlNode → List XmlNode
  | .node _ _ cs => cs

/-- A parsed document (`xmlDoc`); `root` is `xmlDocGetRootElement(doc)`. -/
structure xmlDoc where
  root : XmlNode

/-- `struct iio_channel`, restricted to the fields src/xml.c populates.
`dev` is the non-owning back-reference `chn->dev`, modelled as the abstract
address of the owning device. Defaults model the zero fill of `calloc`. -/
structure iio_channel where
  dev : Nat
  id : Option String := none
  name : Option String := none
  is_output : Bool := false
  attrs : List String := []
  deriving DecidableEq, Repr

/-- `struct iio_device`, restricted to the fields src/xml.c populates.
`ctx` is the non-owning back-reference `dev->ctx`, modelled as the abstract
address of the owning context. Defaults model the zero fill of `calloc`. -/
structure iio_device where
  ctx : Nat
  id : Option String := none
  name : Option String := none
  channels : List iio_channel := []
  attrs : List String := []
  deriving DecidableEq, Repr

/-- `struct iio_context`, restricted to the fields src/xml.c populates
(the inert ops table carries no data and is omitted). -/
structure iio_context where
  name : String
  devices : List iio_device := []
  deriving DecidableEq, Repr

/-- Abstract address of the single context allocation; devices store it in
their `ctx` back-reference. -/
def ctxAddr : Nat := 0

/-- Reading `attr->children->content` (src/xml.c lines 33, 66, 103, 153, 155):
the code performs the read without checking that the property has a value
node, so a property with `content = none` crashes. -/
def readContent (a : XmlAttr) : Except PErr String :=
  match a.content with
  | some c => Except.ok c
  | none => Except.error PErr.crash

/-- The property loop of `add_attr_to_channel` (src/xml.c lines 31-38) and of
`add_attr_to_device` (lines 64-71), which are textually identical in the C
source: the property named "name" supplies the attribute name, a later
occurrence silently overwriting an earlier one; every other property only
produces a warning and is skipped (its value is never read). -/
def scanAttrName : Option String → List XmlAttr → Except PErr (Option String)
  | acc, [] => Except.ok acc
  | acc, a :: rest =>
    if a.name = "name" then
      match readContent a with
      | Except.ok c => scanAttrName (some c) rest
      | Except.error e => Except.error e
    else scanAttrName acc rest

/-- `add_attr_to_channel` (src/xml.c lines 26-57). Mirrors the C result: the
`Int` is the C return code, and the channel is returned updated on success
and untouched on the -1 (missing "name") path. The realloc of the attribute
array is modelled by list append, which always succeeds. -/
def add_attr_to_channel (chn : iio_channel) (n : XmlNode) :
    Except PErr (Int × iio_channel) :=
  match scanAttrName none n.properties with
  | Except.error e => Except.error e
  | Except.ok none => Except.ok (-1, chn)
  | Except.ok (some nm) =>
    Except.ok (0, { chn with attrs := chn.attrs ++ [nm] })

/-- `add_attr_to_device` (src/xml.c lines 59-90), same shape as
`add_attr_to_channel` but growing the device attribute list. -/
def add_attr_to_device (dev : iio_device) (n : XmlNode) :
    Except PErr (Int × iio_device) :=
  match scanAttrName none n.properties with
  | Except.error e => Except.error e
  | Except.ok none => Except.ok (-1, dev)
  | Except.ok (some nm) =>
    Except.ok (0, { dev with attrs := dev.attrs ++ [nm] })

/-- The property loop of `create_channel` (src/xml.c lines 101-117). The
content pointer is dereferenced before the name dispatch, for every property,
recognized or not; "name" and "id" overwrite on repetition; "type" only ever
sets `is_output` to true (value "output"), never back to false. -/
def chanProps : iio_channel → List XmlAttr → Except PErr iio_channel
  | chn, [] => Except.ok chn
  | chn, a :: rest =>
    match readContent a with
    | Except.error e => Except.error e
    | Except.ok content =>
      if a.name = "name" then chanProps { chn with name := some content } rest
      else if a.name = "id" then chanProps { chn with id := some content } rest
      else if a.name = "type" then
        if content = "output" then chanProps { chn with is_output := true } rest
        else chanProps chn rest
      else chanProps chn rest

/-- The child loop of `create_channel` (src/xml.c lines 124-133): a child
named "attribute" goes through `add_attr_to_channel`, a negative result code
aborting the channel; every other child ("text" silently, the rest with a
warning) is skipped. -/
def chanChildren : iio_channel → List XmlNode → Except PErr iio_channel
  | chn, [] => Except.ok chn
  | chn, c :: rest =>
    if c.name = "attribute" then
      match add_attr_to_channel chn c with
      | Except.error e => Except.error e
      | Except.ok (r, chn') =>
        if r < 0 then Except.error PErr.fail
        else chanChildren chn' rest
    else chanChildren chn rest

/-- `create_channel` (src/xml.c lines 92-140). `dev` is the owning device's
address, stored in the back-reference before any fallible work. A missing
`id` after the property scan is fatal (`PErr.fail` models the NULL return). -/
def create_channel (dev : Nat) (n : XmlNode) : Except PErr iio_channel :=
  match chanProps { dev := dev } n.properties with
  | Except.error e => Except.error e
  | Except.ok chn =>
    if chn.id.isNone then Except.error PErr.fail
    else chanChildren chn n.children

/-- The property loop of `create_device` (src/xml.c lines 151-160): only the
"name" and "id" properties have their value read; any other property only
produces a warning and its value node is never touched. -/
def devProps : iio_device → List XmlAttr → Except PErr iio_device
  | dev, [] => Except.ok dev
  | dev, a :: rest =>
    if a.name = "name" then
      match readContent a with
      | Except.error e => Except.error e
      | Except.ok content => devProps { dev with name := some content } rest
    else if a.name = "id" then
      match readContent a with
      | Except.error e => Except.error e
      | Except.ok content => devProps { dev with id := some content } rest
    else devProps dev rest

/-- The child loop of `create_device` (src/xml.c lines 167-194). `self` is
the address of the device under construction, handed to every channel as its
back-reference; channel failure or a negative attribute-collector result
aborts the device; other children are skipped. -/
def devChildren (self : Nat) : iio_device → List XmlNode → Except PErr iio_device
  | dev, [] => Except.ok dev
  | dev, c :: rest =>
    if c.name = "channel" then
      match create_channel self c with
      | Except.error e => Except.error e
      | Except.ok chn =>
        devChildren self { dev with channels := dev.channels ++ [chn] } rest
    else if c.name = "attribute" then
      match add_attr_to_device dev c with
      | Except.error e => Except.error e
      | Except.ok (r, dev') =>
        if r < 0 then Except.error PErr.fail
        else devChildren self dev' rest
    else devChildren self dev rest

/-- `create_device` (src/xml.c lines 142-201). `ctx` is the owning context's
address (stored before any fallible work), `self` the address of this device
allocation. A missing `id` is fatal. -/
def create_device (ctx : Nat) (self : Nat) (n : XmlNode) :
    Except PErr iio_device :=
  match devProps { ctx := ctx } n.properties with
  | Except.error e => Except.error e
  | Except.ok dev =>
    if dev.id.isNone then Except.error PErr.fail
    else devChildren self dev n.children

/-- The child loop of `iio_create_xml_context_helper` (src/xml.c lines
223-249): each child named "device" is built (receiving the context address
and, as its own fresh address, the current device count) and appended; any
other child is skipped. Failure of one device aborts the whole context: the
C code frees every already-appended device and returns NULL. -/
def ctxChildren : iio_context → List XmlNode → Except PErr iio_context
  | ctx, [] => Except.ok ctx
  | ctx, c :: rest =>
    if c.name = "device" then
      match create_device ctxAddr ctx.devices.length c with
      | Except.error e => Except.error e
      | Except.ok dev =>
        ctxChildren { ctx with devices := ctx.devices ++ [dev] } rest
    else ctxChildren ctx rest

/-- `iio_create_xml_context_helper` (src/xml.c lines 206-261): a root tag
other than exactly "context" is fatal before any child is examined;
otherwise the device list is accumulated over the root's children. -/
def iio_create_xml_context_helper (doc : xmlDoc) : Except PErr iio_context :=
  if doc.root.name = "context" then
    ctxChildren { name := "xml", devices := [] } doc.root.children
  else Except.error PErr.fail

/-- Calls observable to the external collaborators of the two entry points:
invoking the context builder, and releasing the parsed document with
`xmlFreeDoc`. -/
inductive Ev where
  | helperCall
  | freeDoc
  deriving DecidableEq, Repr

/-- `iio_create_xml_context` (src/xml.c lines 263-280), with the external
parser call abstracted by its result: `none` models `xmlReadFile` returning
NULL. The event list records the builder invocation and the document
release; a crash inside the builder never returns to the caller, so no
release event can follow it. -/
def iio_create_xml_context (parsed : Option xmlDoc) :
    Except PErr iio_context × List Ev :=
  match parsed with
  | none => (Except.error PErr.fail, [])
  | some doc =>
    match iio_create_xml_context_helper doc with
    | Except.error PErr.crash => (Except.error PErr.crash, [Ev.helperCall])
    | r => (r, [Ev.helperCall, Ev.freeDoc])

/-- `iio_create_xml_context_mem` (src/xml.c lines 282-298); identical to
`iio_create_xml_context` once the parser call (`xmlReadMemory`) is
abstracted by its result. -/
def iio_create_xml_context_mem (parsed : Option xmlDoc) :
    Except PErr iio_context × List Ev :=
  match parsed with
  | none => (Except.error PErr.fail, [])
  | some doc =>
    match iio_create_xml_context_helper doc with
    | Except.error PErr.crash => (Except.error PErr.crash, [Ev.helperCall])
    | r => (r, [Ev.helperCall, Ev.freeDoc])

/-! ### Specification views

Total functions computing what the builders produce on well-formed input,
and the well-formedness predicates under which they agree with the code. -/

/-- Value recorded for property `key` by a scan that overwrites on every
occurrence: the content of the last property named `key`, or the starting
accumulator when there is none. -/
def lastProp (key : String) : Option String → List XmlAttr → Option String
  | acc, [] => acc
  | acc, a :: rest => lastProp key (if a.name = key then a.content else acc) rest

/-- Whether some property is named "type" with content "output"; on a
successful property scan this is exactly `is_output`, because the C code only
ever sets the flag, never clears it. -/
def hasOutputType : List XmlAttr → Bool
  | [] => false
  | a :: rest => (a.name == "type" && a.content == some "output") || hasOutputType rest

/-- Attribute names collected from a child list, in document order: one entry
per child named "attribute", holding the content of its last "name" property. -/
def attrNamesOf : List XmlNode → List String
  | [] => []
  | c :: rest =>
    if c.name = "attribute" then
      ((lastProp "name" none c.properties).getD "") :: attrNamesOf rest
    else attrNamesOf rest

/-- The children named "channel", in document order. -/
def chanNodesOf (cs : List XmlNode) : List XmlNode :=
  cs.filter fun c => c.name == "channel"

/-- The children named "device", in document order. -/
def devNodesOf (cs : List XmlNode) : List XmlNode :=
  cs.filter fun c => c.name == "device"

/-- The children named "attribute", in document order. -/
def attrNodesOf (cs : List XmlNode) : List XmlNode :=
  cs.filter fun c => c.name == "attribute"

/-- The channel `create_channel dev n` builds on well-formed input. -/
def chanOf (dev : Nat) (n : XmlNode) : iio_channel :=
  { dev := dev
    id := lastProp "id" none n.properties
    name := lastProp "name" none n.properties
    is_output := hasOutputType n.properties
    attrs := attrNamesOf n.children }

/-- The device `create_device ctx self n` builds on well-formed input. -/
def devOf (ctx self : Nat) (n : XmlNode) : iio_device :=
  { ctx := ctx
    id := lastProp "id" none n.properties
    name := lastProp "name" none n.properties
    channels := (chanNodesOf n.children).map (chanOf self)
    attrs := attrNamesOf n.children }

/-- The device list the context builder accumulates from a child list, the
first device receiving address `i`: one device per child named "device", in
document order, the j-th one carrying address i + j. -/
def devsOf : Nat → List XmlNode → List iio_device
  | _, [] => []
  | i, c :: rest =>
    if c.name = "device" then devOf ctxAddr i c :: devsOf (i + 1) rest
    else devsOf i rest

/-- Every property named "name" carries a value node. -/
abbrev namesValued (props : List XmlAttr) : Prop :=
  ∀ a ∈ props, a.name = "name" → a.content.isSome

/-- A node acceptable to the attribute collector: it has a "name" property
and every "name" property carries a value. -/
abbrev attrNodeOk (n : XmlNode) : Prop :=
  (∃ a ∈ n.properties, a.name = "name") ∧ namesValued n.properties

/-- A channel node the channel builder accepts: every property carries a
value (the builder reads all of them), an "id" property is present, and
every "attribute" child is acceptable to the collector. -/
abbrev chnNodeOk (n : XmlNode) : Prop :=
  (∀ a ∈ n.properties, a.content.isSome) ∧
  (∃ a ∈ n.properties, a.name = "id") ∧
  ∀ c ∈ n.children, c.name = "attribute" → attrNodeOk c

/-- Every property named "name" or "id" carries a value node (the device
builder reads no other property). -/
abbrev devPropsOk (props : List XmlAttr) : Prop :=
  ∀ a ∈ props, a.name = "name" ∨ a.name = "id" → a.content.isSome

/-- A device node the device builder accepts. -/
abbrev devNodeOk (n : XmlNode) : Prop :=
  devPropsOk n.properties ∧
  (∃ a ∈ n.properties, a.name = "id") ∧
  (∀ c ∈ n.children, c.name = "channel" → chnNodeOk c) ∧
  (∀ c ∈ n.children, c.name = "attribute" → attrNodeOk c)

/-- A well-formed document: root tag "context" and every "device" child
acceptable to the device builder. -/
abbrev docOk (doc : xmlDoc) : Prop :=
  doc.root.name = "context" ∧
  ∀ c ∈ doc.root.children, c.name = "device" → devNodeOk c

/-- Every property of the node carries a value. -/
abbrev nodeValued (n : XmlNode) : Prop :=
  ∀ a ∈ n.properties, a.content.isSome

/-- Every property of every node the builders can reach carries a value:
the root's children (device candidates), their children (channel and
attribute candidates) and those nodes' children (channel-level attribute
candidates). Deeper nodes are never read. -/
abbrev docValued (doc : xmlDoc) : Prop :=
  (∀ c ∈ doc.root.children, nodeValued c) ∧
  (∀ c ∈ doc.root.children, ∀ d ∈ c.children, nodeValued d) ∧
  (∀ c ∈ doc.root.children, ∀ d ∈ c.children, ∀ e ∈ d.children, nodeValued e)

instance (n : XmlNode) : Decidable (attrNodeOk n) :=
  inferInstanceAs (Decidable (_ ∧ _))

instance (n : XmlNode) : Decidable (chnNodeOk n) :=
  inferInstanceAs (Decidable (_ ∧ _ ∧ _))

instance (n : XmlNode) : Decidable (devNodeOk n) :=
  inferInstanceAs (Decidable (_ ∧ _ ∧ _ ∧ _))

instance (doc : xmlDoc) : Decidable (docOk doc) :=
  inferInstanceAs (Decidable (_ ∧ _))

instance (n : XmlNode) : Decidable (nodeValued n) :=
  inferInstanceAs (Decidable (∀ a ∈ n.properties, a.content.isSome))

instance (doc : xmlDoc) : Decidable (docValued doc) :=
  inferInstanceAs (Decidable (_ ∧ _ ∧ _))

/-! ### Concrete documents used by the witnesses -/

/-- Concrete scenario A of the spec: one device with one output channel. -/
def exDocA : xmlDoc :=
  ⟨.node "context" [] [
    .node "device" [⟨"id", some "dev0"⟩] [
      .node "channel" [⟨"id", some "voltage0"⟩, ⟨"type", some "output"⟩] [
        .node "attribute" [⟨"name", some "scale"⟩] []],
      .node "attribute" [⟨"name", some "calibbias"⟩] []]]⟩

/-- A well-formed device node followed by a device node lacking "id". -/
def exDocC1 : xmlDoc :=
  ⟨.node "context" [] [
    .node "device" [⟨"id", some "dev0"⟩] [],
    .node "device" [⟨"name", some "orphan"⟩] []]⟩

/-- Root tag with the wrong case, holding an otherwise well-formed device. -/
def exDocC3 : xmlDoc :=
  ⟨.node "Context" [] [.node "device" [⟨"id", some "dev0"⟩] []]⟩

/-- A channel node whose "type" property has an unrecognized value. -/
def exChnNode : XmlNode :=
  .node "channel" [⟨"id", some "voltage1"⟩, ⟨"type", some "garbage"⟩] []

/-- The channel the builder produces from `exChnNode`. -/
def exChn : iio_channel :=
  { dev := 0, id := some "voltage1", name := none, is_output := false, attrs := [] }

/-- The context built from the scenario-A document `exDocA`. -/
def exCtxA : iio_context :=
  { name := "xml"
    devices := [{ ctx := 0, id := some "dev0", name := none
                  channels := [{ dev := 0, id := some "voltage0", name := none,
                                 is_output := true, attrs := ["scale"] }]
                  attrs := ["calibbias"] }] }

/-- A channel node on which the "name" property appears twice. -/
def exDupNode : XmlNode :=
  .node "channel" [⟨"id", some "x"⟩, ⟨"name", some "first"⟩,
                   ⟨"name", some "second"⟩] []

/-- The channel the builder produces from `exDupNode`: the second "name"
occurrence wins. -/
def exDupChn : iio_channel :=
  { dev := 0, id := some "x", name := some "second", is_output := false, attrs := [] }

/-- A well-formed document: one device with one channel. -/
def exDocC8 : xmlDoc :=
  ⟨.node "context" [] [
    .node "device" [⟨"id", some "dev0"⟩] [
      .node "channel" [⟨"id", some "voltage0"⟩] []]]⟩

/-- `exDocC8` with one extra unrecognized property on the channel node whose
value node is absent (in libxml2 terms, `foo=""`). -/
def exDocC8bad : xmlDoc :=
  ⟨.node "context" [] [
    .node "device" [⟨"id", some "dev0"⟩] [
      .node "channel" [⟨"id", some "voltage0"⟩, ⟨"foo", none⟩] []]]⟩

/-- The context built from `exDocC8`. -/
def exCtxC8 : iio_context :=
  { name := "xml"
    devices := [{ ctx := 0, id := some "dev0", name := none
                  channels := [{ dev := 0, id := some "voltage0", name := none,
                                 is_output := false, attrs := [] }]
                  attrs := [] }] }

/-! ### Supporting lemmas: the attribute name scan -/

/-- Scanning a concatenation scans the second part from the first part's
result. -/
theorem lastProp_append (key : String) (l1 l2 : List XmlAttr) :
    ∀ acc, lastProp key acc (l1 ++ l2) = lastProp key (lastProp key acc l1) l2 := by
  induction l1 with
  | nil => intro acc; rfl
  | cons a rest ih => intro acc; simp [lastProp, ih]

/-- A scan over properties none of which is named `key` keeps the
accumulator. -/
theorem lastProp_no_key (key : String) (l : List XmlAttr)
    (h : ∀ a ∈ l, a.name ≠ key) : ∀ acc, lastProp key acc l = acc := by
  induction l with
  | nil => intro acc; rfl
  | cons a rest ih =>
    intro acc
    have ha : a.name ≠ key := h a (List.mem_cons_self a rest)
    simp [lastProp, ha]
    exact ih (fun b hb => h b (List.mem_cons_of_mem a hb)) acc

/-- The scan records the content of the last property named `key`. -/
theorem lastProp_last (key : String) (l1 l2 : List XmlAttr) (a : XmlAttr)
    (ha : a.name = key) (h2 : ∀ b ∈ l2, b.name ≠ key) (acc : Option String) :
    lastProp key acc (l1 ++ a :: l2) = a.content := by
  rw [lastProp_append]
  simp [lastProp, ha]
  exact lastProp_no_key key l2 h2 a.content

/-- When a property named `key` exists and every one of them is valued, the
scan result is valued. -/
theorem lastProp_isSome (key : String) (l : List XmlAttr) :
    ∀ acc : Option String,
    (∀ a ∈ l, a.name = key → a.content.isSome) →
    (acc.isSome ∨ ∃ a ∈ l, a.name = key) →
    (lastProp key acc l).isSome := by
  induction l with
  | nil =>
    intro acc _ hex
    rcases hex with h | ⟨a, ha, _⟩
    · exact h
    · cases ha
  | cons a rest ih =>
    intro acc hv hex
    have hvr : ∀ b ∈ rest, b.name = key → b.content.isSome :=
      fun b hb => hv b (List.mem_cons_of_mem a hb)
    by_cases ha : a.name = key
    · simp only [lastProp, ha, if_pos]
      exact ih a.content hvr (Or.inl (hv a (List.mem_cons_self a rest) ha))
    · simp only [lastProp, ha, if_neg, ite_false]
      refine ih acc hvr ?_
      rcases hex with h | ⟨b, hb, hbk⟩
      · exact Or.inl h
      · rcases List.mem_cons.mp hb with rfl | hb'
        · exact absurd hbk ha
        · exact Or.inr ⟨b, hb', hbk⟩

/-- On a property list whose "name" properties are all valued, the collector
scan succeeds and computes the last-occurrence value. -/
theorem scanAttrName_ok (l : List XmlAttr) :
    ∀ acc, namesValued l →
    scanAttrName acc l = Except.ok (lastProp "name" acc l) := by
  induction l with
  | nil => intro acc _; rfl
  | cons a rest ih =>
    intro acc h
    have hr : namesValued rest := fun b hb => h b (List.mem_cons_of_mem a hb)
    by_cases ha : a.name = "name"
    · obtain ⟨c, hc⟩ :=
        Option.isSome_iff_exists.mp (h a (List.mem_cons_self a rest) ha)
    
      simp [scanAttrName, lastProp, ha, readContent, hc, ih _ hr]
    · simp [scanAttrName, lastProp, ha, ih _ hr]

/-- A collector call on a node with a valued "name" property appends exactly
the last-occurrence name to the channel attribute list and reports success. -/
theorem add_attr_to_channel_ok (chn : iio_channel) (n : XmlNode)
    (h : attrNodeOk n) :
    add_attr_to_channel chn n = Except.ok
      (0, { chn with
            attrs := chn.attrs ++ [(lastProp "name" none n.properties).getD ""] }) := by
  obtain ⟨hex, hv⟩ := h
  obtain ⟨v, hv'⟩ := Option.isSome_iff_exists.mp
    (lastProp_isSome "name" n.properties none hv (Or.inr hex))
  simp [add_attr_to_channel, scanAttrName_ok _ _ hv, hv']

/-- A collector call on a node with no "name" property fails with the C code
-1 and returns the channel untouched. -/
theorem add_attr_to_channel_none (chn : iio_channel) (n : XmlNode)
    (h : ∀ a ∈ n.properties, a.name ≠ "name") :
    add_attr_to_channel chn n = Except.ok (-1, chn) := by
  have hv : namesValued n.properties := fun a ha hn => absurd hn (h a ha)
  simp [add_attr_to_channel, scanAttrName_ok _ _ hv, lastProp_no_key _ _ h]

/-- Device version of `add_attr_to_channel_ok`. -/
theorem add_attr_to_device_ok (dev : iio_device) (n : XmlNode)
    (h : attrNodeOk n) :
    add_attr_to_device dev n = Except.ok
      (0, { dev with
            attrs := dev.attrs ++ [(lastProp "name" none n.properties).getD ""] }) := by
  obtain ⟨hex, hv⟩ := h
  obtain ⟨v, hv'⟩ := Option.isSome_iff_exists.mp
    (lastProp_isSome "name" n.properties none hv (Or.inr hex))
  simp [add_attr_to_device, scanAttrName_ok _ _ hv, hv']

/-- Device version of `add_attr_to_channel_none`. -/
theorem add_attr_to_device_none (dev : iio_device) (n : XmlNode)
    (h : ∀ a ∈ n.properties, a.name ≠ "name") :
    add_attr_to_device dev n = Except.ok (-1, dev) := by
  have hv : namesValued n.properties := fun a ha hn => absurd hn (h a ha)
  simp [add_attr_to_device, scanAttrName_ok _ _ hv, lastProp_no_key _ _ h]

/-- Whatever a successful collector call returns, every channel field other
than the attribute list is untouched, and the attribute list is either
untouched (code -1) or grown by one appended name (code 0). -/
theorem add_attr_to_channel_fields (chn : iio_channel) (n : XmlNode)
    (r : Int) (chn' : iio_channel)
    (h : add_attr_to_channel chn n = Except.ok (r, chn')) :
    chn'.dev = chn.dev ∧ chn'.name = chn.name ∧ chn'.id = chn.id ∧
    chn'.is_output = chn.is_output ∧
    ((r = -1 ∧ chn' = chn) ∨ (r = 0 ∧ ∃ v, chn'.attrs = chn.attrs ++ [v])) := by
  revert h
  cases hs : scanAttrName none n.properties with
  | error e => simp [add_attr_to_channel, hs]
  | ok o =>
    cases o with
    | none =>
      intro h
      simp [add_attr_to_channel, hs] at h
      obtain ⟨rfl, rfl⟩ := h
      simp
    | some v =>
      intro h
      simp [add_attr_to_channel, hs] at h
      obtain ⟨rfl, rfl⟩ := h
      simp

/-- Device version of `add_attr_to_channel_fields`. -/
theorem add_attr_to_device_fields (dev : iio_device) (n : XmlNode)
    (r : Int) (dev' : iio_device)
    (h : add_attr_to_device dev n = Except.ok (r, dev')) :
    dev'.ctx = dev.ctx ∧ dev'.name = dev.name ∧ dev'.id = dev.id ∧
    dev'.channels = dev.channels ∧
    ((r = -1 ∧ dev' = dev) ∨ (r = 0 ∧ ∃ v, dev'.attrs = dev.attrs ++ [v])) := by
  revert h
  cases hs : scanAttrName none n.properties with
  | error e => simp [add_attr_to_device, hs]
  | ok o =>
    cases o with
    | none =>
      intro h
      simp [add_attr_to_device, hs] at h
      obtain ⟨rfl, rfl⟩ := h
      simp
    | some v =>
      intro h
      simp [add_attr_to_device, hs] at h
      obtain ⟨rfl, rfl⟩ := h
      simp

/-! ### Supporting lemmas: the channel builder -/

/-- On a fully valued property list, the channel property scan succeeds and
records the last "name" and "id" occurrences and whether a "type" property
says "output". -/
theorem chanProps_ok (l : List XmlAttr) :
    ∀ chn : iio_channel, (∀ a ∈ l, a.content.isSome) →
    chanProps chn l = Except.ok { chn with
      name := lastProp "name" chn.name l
      id := lastProp "id" chn.id l
      is_output := chn.is_output || hasOutputType l } := by
  induction l with
  | nil => intro chn _; simp [chanProps, lastProp, hasOutputType]
  | cons a rest ih =>
    intro chn h
    obtain ⟨c, hc⟩ := Option.isSome_iff_exists.mp (h a (List.mem_cons_self a rest))
    have hr : ∀ b ∈ rest, b.content.isSome :=
      fun b hb => h b (List.mem_cons_of_mem a hb)
    by_cases hn : a.name = "name"
    · simp [chanProps, readContent, hc, hn, lastProp, hasOutputType, ih _ hr]
    · by_cases hi : a.name = "id"
      · simp [chanProps, readContent, hc, hn, hi, lastProp, hasOutputType, ih _ hr]
      · by_cases ht : a.name = "type"
        · by_cases ho : c = "output"
          · simp [chanProps, readContent, hc, hn, hi, ht, ho, lastProp,
                  hasOutputType, ih _ hr]
          · have hco : (c == "output") = false := by simp [ho]
            simp [chanProps, readContent, hc, hn, hi, ht, ho, lastProp,
                  hasOutputType, hco, ih _ hr]
        · have hat : (a.name == "type") = false := by simp [ht]
          simp [chanProps, readContent, hc, hn, hi, ht, hat, lastProp,
                hasOutputType, ih _ hr]

/-- Any successful channel property scan leaves `dev` and `attrs` untouched
and gives the fields of `chanProps_ok` (success forces every content read to
have found a value). -/
theorem chanProps_fields (l : List XmlAttr) :
    ∀ chn chn' : iio_channel, chanProps chn l = Except.ok chn' →
    chn'.dev = chn.dev ∧ chn'.attrs = chn.attrs ∧
    chn'.name = lastProp "name" chn.name l ∧
    chn'.id = lastProp "id" chn.id l ∧
    chn'.is_output = (chn.is_output || hasOutputType l) := by
  induction l with
  | nil =>
    intro chn chn' h
    simp [chanProps] at h
    simp [← h, lastProp, hasOutputType]
  | cons a rest ih =>
    intro chn chn' h
    cases hc : a.content with
    | none => simp [chanProps, readContent, hc] at h
    | some c =>
      by_cases hn : a.name = "name"
      · simp only [chanProps, readContent, hc, hn, if_true, if_pos] at h
        have := ih _ _ h
        simpa [lastProp, hasOutputType, hn, hc] using this
      · by_cases hi : a.name = "id"
        · simp only [chanProps, readContent, hc, hn, hi, if_false, if_true,
                     if_pos, if_neg, not_false_iff] at h
          have := ih _ _ h
          simpa [lastProp, hasOutputType, hn, hi, hc] using this
        · by_cases ht : a.name = "type"
          · by_cases ho : c = "output"
            · simp only [chanProps, readContent, hc, hn, hi, ht, ho, if_false,
                         if_true, if_pos, if_neg, not_false_iff] at h
              have := ih _ _ h
              simpa [lastProp, hasOutputType, hn, hi, ht, hc, ho] using this
            · simp only [chanProps, readContent, hc, hn, hi, ht, ho, if_false,
                         if_true, if_pos, if_neg, not_false_iff] at h
              have := ih _ _ h
              have hco : (c == "output") = false := by simp [ho]
              simpa [lastProp, hasOutputType, hn, hi, ht, hc, hco] using this
          · simp only [chanProps, readContent, hc, hn, hi, ht, if_false,
                       if_neg, not_false_iff] at h
            have := ih _ _ h
            have hat : (a.name == "type") = false := by simp [ht]
            simpa [lastProp, hasOutputType, hn, hi, ht, hat, hc] using this

/-- On a child list whose "attribute" children are all acceptable to the
collector, the channel child loop succeeds and appends exactly the collected
names, in document order, touching no other field. -/
theorem chanChildren_ok (cs : List XmlNode) :
    ∀ chn : iio_channel,
    (∀ c ∈ cs, c.name = "attribute" → attrNodeOk c) →
    chanChildren chn cs = Except.ok { chn with attrs := chn.attrs ++ attrNamesOf cs } := by
  induction cs with
  | nil => intro chn _; simp [chanChildren, attrNamesOf]
  | cons c rest ih =>
    intro chn h
    have hr : ∀ b ∈ rest, b.name = "attribute" → attrNodeOk b :=
      fun b hb => h b (List.mem_cons_of_mem c hb)
    by_cases hc : c.name = "attribute"
    · have hok := add_attr_to_channel_ok chn c (h c (List.mem_cons_self c rest) hc)
      simp [chanChildren, hc, hok, attrNamesOf, ih _ hr]
    · simp [chanChildren, hc, attrNamesOf, ih _ hr]

/-- Any successful channel child loop leaves every field except the
attribute list untouched. -/
theorem chanChildren_fields (cs : List XmlNode) :
    ∀ chn chn' : iio_channel, chanChildren chn cs = Except.ok chn' →
    chn'.dev = chn.dev ∧ chn'.name = chn.name ∧ chn'.id = chn.id ∧
    chn'.is_output = chn.is_output := by
  induction cs with
  | nil =>
    intro chn chn' h
    simp [chanChildren] at h
    simp [← h]
  | cons c rest ih =>
    intro chn chn' h
    by_cases hc : c.name = "attribute"
    · rw [chanChildren, if_pos hc] at h
      revert h
      cases ha : add_attr_to_channel chn c with
      | error e => simp
      | ok p =>
        obtain ⟨r, chn1⟩ := p
        intro h
        by_cases hrn : r < 0
        · simp [hrn] at h
        · simp [hrn] at h
          obtain ⟨hd, hn, hi, ho, _⟩ := add_attr_to_channel_fields chn c r chn1 ha
          obtain ⟨hd', hn', hi', ho'⟩ := ih _ _ h
          exact ⟨hd'.trans hd, hn'.trans hn, hi'.trans hi, ho'.trans ho⟩
    · rw [chanChildren, if_neg hc] at h
      exact ih _ _ h

/-- On an acceptable channel node, `create_channel` builds exactly the
channel described by `chanOf`. -/
theorem create_channel_ok (d : Nat) (n : XmlNode) (h : chnNodeOk n) :
    create_channel d n = Except.ok (chanOf d n) := by
  obtain ⟨hv, hex, hch⟩ := h
  have hid := Option.isSome_iff_exists.mp
    (lastProp_isSome "id" n.properties none (fun a ha _ => hv a ha) (Or.inr hex))
  obtain ⟨v, hv'⟩ := hid
  rw [create_channel, chanProps_ok _ _ hv]
  simp only [hv', Option.isNone_some, Bool.false_eq_true, if_false]
  rw [chanChildren_ok _ _ hch]
  simp [chanOf, hv']

/-- Any channel `create_channel` returns carries the requested back-reference
and the property-scan fields; in particular the back-reference equals the
argument no matter what the node contains. -/
theorem create_channel_fields (d : Nat) (n : XmlNode) (chn : iio_channel)
    (h : create_channel d n = Except.ok chn) :
    chn.dev = d ∧ chn.is_output = hasOutputType n.properties ∧
    chn.name = lastProp "name" none n.properties ∧
    chn.id = lastProp "id" none n.properties := by
  revert h
  rw [create_channel]
  cases hp : chanProps { dev := d } n.properties with
  | error e => simp
  | ok chn1 =>
    intro h
    by_cases hi : chn1.id.isNone
    · simp [hi] at h
    · simp [hi] at h
      obtain ⟨hd, ha, hn, hid, ho⟩ := chanProps_fields _ _ _ hp
      obtain ⟨hd', hn', hi', ho'⟩ := chanChildren_fields _ _ _ h
      exact ⟨hd'.trans hd, (ho'.trans ho).trans (Bool.false_or _),
             hn'.trans hn, hi'.trans hid⟩

/-! ### Supporting lemmas: the device builder -/

/-- On a property list whose "name" and "id" properties are valued, the
device property scan succeeds and records the last occurrences. -/
theorem devProps_ok (l : List XmlAttr) :
    ∀ dev : iio_device, devPropsOk l →
    devProps dev l = Except.ok { dev with
      name := lastProp "name" dev.name l
      id := lastProp "id" dev.id l } := by
  induction l with
  | nil => intro dev _; simp [devProps, lastProp]
  | cons a rest ih =>
    intro dev h
    have hr : devPropsOk rest := fun b hb => h b (List.mem_cons_of_mem a hb)
    by_cases hn : a.name = "name"
    · obtain ⟨c, hc⟩ := Option.isSome_iff_exists.mp
        (h a (List.mem_cons_self a rest) (Or.inl hn))
      simp [devProps, readContent, hc, hn, lastProp, ih _ hr]
    · by_cases hi : a.name = "id"
      · obtain ⟨c, hc⟩ := Option.isSome_iff_exists.mp
          (h a (List.mem_cons_self a rest) (Or.inr hi))
        simp [devProps, readContent, hc, hn, hi, lastProp, ih _ hr]
      · simp [devProps, hn, hi, lastProp, ih _ hr]

/-- Any successful device property scan leaves `ctx`, `channels` and `attrs`
untouched and records the last "name" and "id" occurrences. -/
theorem devProps_fields (l : List XmlAttr) :
    ∀ dev dev' : iio_device, devProps dev l = Except.ok dev' →
    dev'.ctx = dev.ctx ∧ dev'.channels = dev.channels ∧ dev'.attrs = dev.attrs ∧
    dev'.name = lastProp "name" dev.name l ∧
    dev'.id = lastProp "id" dev.id l := by
  induction l with
  | nil =>
    intro dev dev' h
    simp [devProps] at h
    simp [← h, lastProp]
  | cons a rest ih =>
    intro dev dev' h
    by_cases hn : a.name = "name"
    · cases hc : a.content with
      | none => simp [devProps, readContent, hc, hn] at h
      | some c =>
        simp only [devProps, readContent, hc, hn, if_true, if_pos] at h
        have := ih _ _ h
        simpa [lastProp, hn, hc] using this
    · by_cases hi : a.name = "id"
      · cases hc : a.content with
        | none => simp [devProps, readContent, hc, hn, hi] at h
        | some c =>
          simp only [devProps, readContent, hc, hn, hi, if_false, if_true,
                     if_pos, if_neg, not_false_iff] at h
          have := ih _ _ h
          simpa [lastProp, hn, hi, hc] using this
      · simp only [devProps, hn, hi, if_false, if_neg, not_false_iff] at h
        have := ih _ _ h
        simpa [lastProp, hn, hi] using this

/-- On a child list whose "channel" children are acceptable channel nodes
and whose "attribute" children are acceptable to the collector, the device
child loop succeeds, appending exactly the built channels (each holding the
device address `s`) and the collected attribute names, in document order. -/
theorem devChildren_ok (cs : List XmlNode) (s : Nat) :
    ∀ dev : iio_device,
    (∀ c ∈ cs, (c.name = "channel" → chnNodeOk c) ∧
               (c.name = "attribute" → attrNodeOk c)) →
    devChildren s dev cs = Except.ok { dev with
      channels := dev.channels ++ (chanNodesOf cs).map (chanOf s)
      attrs := dev.attrs ++ attrNamesOf cs } := by
  induction cs with
  | nil => intro dev _; simp [devChildren, chanNodesOf, attrNamesOf]
  | cons c rest ih =>
    intro dev h
    have hr : ∀ b ∈ rest, (b.name = "channel" → chnNodeOk b) ∧
                          (b.name = "attribute" → attrNodeOk b) :=
      fun b hb => h b (List.mem_cons_of_mem c hb)
    by_cases hc : c.name = "channel"
    · have hna : c.name ≠ "attribute" := by simp [hc]
      have hok := create_channel_ok s c ((h c (List.mem_cons_self c rest)).1 hc)
      simp [devChildren, hc, hna, hok, chanNodesOf, attrNamesOf, ih _ hr,
            List.filter_cons, List.append_assoc]
    · by_cases ha : c.name = "attribute"
      · have hok := add_attr_to_device_ok dev c ((h c (List.mem_cons_self c rest)).2 ha)
        simp [devChildren, hc, ha, hok, chanNodesOf, attrNamesOf, ih _ hr,
              List.filter_cons, List.append_assoc]
      · simp [devChildren, hc, ha, chanNodesOf, attrNamesOf, ih _ hr,
              List.filter_cons]

/-- Any successful device child loop leaves `ctx`, `id` and `name` untouched,
and every channel it appends carries the device address `s` as its
back-reference. -/
theorem devChildren_fields (cs : List XmlNode) (s : Nat) :
    ∀ dev dev' : iio_device, devChildren s dev cs = Except.ok dev' →
    dev'.ctx = dev.ctx ∧ dev'.id = dev.id ∧ dev'.name = dev.name ∧
    ∀ chn ∈ dev'.channels, chn ∈ dev.channels ∨ chn.dev = s := by
  induction cs with
  | nil =>
    intro dev dev' h
    simp [devChildren] at h
    simp [← h]
    exact fun chn hm => Or.inl hm
  | cons c rest ih =>
    intro dev dev' h
    by_cases hc : c.name = "channel"
    · rw [devChildren, if_pos hc] at h
      revert h
      cases hcc : create_channel s c with
      | error e => simp
      | ok chn0 =>
        intro h
        obtain ⟨hd, hi, hn, hm⟩ := ih _ _ h
        refine ⟨hd, hi, hn, fun chn hmm => ?_⟩
        rcases hm chn hmm with hin | hdev
        · rcases List.mem_append.mp hin with hin' | hin''
          · exact Or.inl hin'
          · right
            rw [List.mem_singleton.mp hin'']
            exact (create_channel_fields s c chn0 hcc).1
        · exact Or.inr hdev
    · by_cases ha : c.name = "attribute"
      · rw [devChildren, if_neg hc, if_pos ha] at h
        revert h
        cases haa : add_attr_to_device dev c with
        | error e => simp
        | ok p =>
          obtain ⟨r, dev1⟩ := p
          intro h
          by_cases hrn : r < 0
          · simp [hrn] at h
          · simp [hrn] at h
            obtain ⟨hd1, hn1, hi1, hch1, _⟩ := add_attr_to_device_fields dev c r dev1 haa
            obtain ⟨hd, hi, hn, hm⟩ := ih _ _ h
            refine ⟨hd.trans hd1, hi.trans hi1, hn.trans hn1, fun chn hmm => ?_⟩
            rcases hm chn hmm with hin | hdev
            · exact Or.inl (hch1 ▸ hin)
            · exact Or.inr hdev
      · rw [devChildren, if_neg hc, if_neg ha] at h
        exact ih _ _ h

/-- On an acceptable device node, `create_device` builds exactly the device
described by `devOf`. -/
theorem create_device_ok (g s : Nat) (n : XmlNode) (h : devNodeOk n) :
    create_device g s n = Except.ok (devOf g s n) := by
  obtain ⟨hv, hex, hch1, hch2⟩ := h
  have hch : ∀ c ∈ n.children, (c.name = "channel" → chnNodeOk c) ∧
      (c.name = "attribute" → attrNodeOk c) :=
    fun c hc => ⟨hch1 c hc, hch2 c hc⟩
  obtain ⟨v, hv'⟩ := Option.isSome_iff_exists.mp
    (lastProp_isSome "id" n.properties none
      (fun a ha hk => hv a ha (Or.inr hk)) (Or.inr hex))
  rw [create_device, devProps_ok _ _ hv]
  simp only [hv', Option.isNone_some, Bool.false_eq_true, if_false]
  rw [devChildren_ok _ _ _ hch]
  simp [devOf, hv']

/-- Any device `create_device` returns carries the requested context
back-reference, and all its channels carry the requested device address. -/
theorem create_device_fields (g s : Nat) (n : XmlNode) (dev : iio_device)
    (h : create_device g s n = Except.ok dev) :
    dev.ctx = g ∧ ∀ chn ∈ dev.channels, chn.dev = s := by
  revert h
  rw [create_device]
  cases hp : devProps { ctx := g } n.properties with
  | error e => simp
  | ok dev1 =>
    intro h
    by_cases hi : dev1.id.isNone
    · simp [hi] at h
    · simp [hi] at h
      obtain ⟨hd1, hch1, _, _, _⟩ := devProps_fields _ _ _ hp
      obtain ⟨hd, _, _, hm⟩ := devChildren_fields _ _ _ _ h
      refine ⟨hd.trans hd1, fun chn hmm => ?_⟩
      rcases hm chn hmm with hin | hdev
      · rw [hch1] at hin
        simp at hin
      · exact hdev

/-! ### Supporting lemmas: the context builder -/

/-- On a child list whose "device" children are all acceptable, the context
child loop succeeds and appends exactly the devices described by `devsOf`,
started at the current device count. -/
theorem ctxChildren_ok (cs : List XmlNode) :
    ∀ ctx : iio_context,
    (∀ c ∈ cs, c.name = "device" → devNodeOk c) →
    ctxChildren ctx cs = Except.ok
      { ctx with devices := ctx.devices ++ devsOf ctx.devices.length cs } := by
  induction cs with
  | nil => intro ctx _; simp [ctxChildren, devsOf]
  | cons c rest ih =>
    intro ctx h
    have hr : ∀ b ∈ rest, b.name = "device" → devNodeOk b :=
      fun b hb => h b (List.mem_cons_of_mem c hb)
    by_cases hc : c.name = "device"
    · have hok := create_device_ok ctxAddr ctx.devices.length c
        (h c (List.mem_cons_self c rest) hc)
      simp [ctxChildren, hc, hok, devsOf, ih _ hr, List.append_assoc,
            Nat.add_comm]
    · simp [ctxChildren, hc, devsOf, ih _ hr]

/-- `devsOf` produces one device per "device" child. -/
theorem devsOf_length (cs : List XmlNode) :
    ∀ i, (devsOf i cs).length = (devNodesOf cs).length := by
  induction cs with
  | nil => intro i; rfl
  | cons c rest ih =>
    intro i
    by_cases hc : c.name = "device"
    · simp [devsOf, devNodesOf, List.filter_cons, hc, ih]
    · simp [devsOf, devNodesOf, List.filter_cons, hc, ih]

/-- The j-th device `devsOf` produces is built from the j-th "device" child
and carries address i + j. -/
theorem devsOf_get (cs : List XmlNode) :
    ∀ i j (hj : j < (devsOf i cs).length) (hj' : j < (devNodesOf cs).length),
    (devsOf i cs).get ⟨j, hj⟩ =
      devOf ctxAddr (i + j) ((devNodesOf cs).get ⟨j, hj'⟩) := by
  induction cs with
  | nil => intro i j hj _; simp [devsOf] at hj
  | cons c rest ih =>
    intro i j hj hj'
    by_cases hc : c.name = "device"
    · have hdl : devsOf i (c :: rest) = devOf ctxAddr i c :: devsOf (i + 1) rest := by
        simp [devsOf, hc]
      have hfl : devNodesOf (c :: rest) = c :: devNodesOf rest := by
        simp [devNodesOf, List.filter_cons, hc]
      cases j with
      | zero =>
        rw [List.get_of_eq hdl ⟨0, hj⟩, List.get_of_eq hfl ⟨0, hj'⟩]
        simp
      | succ j' =>
        rw [List.get_of_eq hdl ⟨j' + 1, hj⟩, List.get_of_eq hfl ⟨j' + 1, hj'⟩]
        have hlen : (devsOf i (c :: rest)).length = (devsOf (i + 1) rest).length + 1 := by
          rw [hdl]; rfl
        have hlen' : (devNodesOf (c :: rest)).length = (devNodesOf rest).length + 1 := by
          rw [hfl]; rfl
        have hj2 : j' < (devsOf (i + 1) rest).length := by omega
        have hj2' : j' < (devNodesOf rest).length := by omega
        have hrec := ih (i + 1) j' hj2 hj2'
        have harith : i + 1 + j' = i + (j' + 1) := by omega
        simp only [List.get_eq_getElem, List.getElem_cons_succ]
        simp only [List.get_eq_getElem] at hrec
        rw [hrec, harith]
    · have hdl : devsOf i (c :: rest) = devsOf i rest := by simp [devsOf, hc]
      have hfl : devNodesOf (c :: rest) = devNodesOf rest := by
        simp [devNodesOf, List.filter_cons, hc]
      rw [List.get_of_eq hdl ⟨j, hj⟩, List.get_of_eq hfl ⟨j, hj'⟩]
      exact ih i j _ _

/-- On a well-formed document the helper builds exactly the context whose
devices are `devsOf 0` of the root's children. -/
theorem helper_ok (doc : xmlDoc) (h : docOk doc) :
    iio_create_xml_context_helper doc =
      Except.ok { name := "xml", devices := devsOf 0 doc.root.children } := by
  obtain ⟨hroot, hdev⟩ := h
  rw [iio_create_xml_context_helper, if_pos hroot, ctxChildren_ok _ _ hdev]
  rfl

/-- Back-reference invariant of the context child loop: if every device
already accumulated points back to the context address and its channels to
its own position, the same holds after the loop. -/
theorem ctxChildren_inv (cs : List XmlNode) :
    ∀ ctx ctx' : iio_context, ctxChildren ctx cs = Except.ok ctx' →
    (∀ i (hi : i < ctx.devices.length),
        (ctx.devices.get ⟨i, hi⟩).ctx = ctxAddr ∧
        ∀ chn ∈ (ctx.devices.get ⟨i, hi⟩).channels, chn.dev = i) →
    ∀ i (hi : i < ctx'.devices.length),
        (ctx'.devices.get ⟨i, hi⟩).ctx = ctxAddr ∧
        ∀ chn ∈ (ctx'.devices.get ⟨i, hi⟩).channels, chn.dev = i := by
  induction cs with
  | nil =>
    intro ctx ctx' h hinv
    simp [ctxChildren] at h
    subst h
    exact hinv
  | cons c rest ih =>
    intro ctx ctx' h hinv
    by_cases hc : c.name = "device"
    · rw [ctxChildren, if_pos hc] at h
      revert h
      cases hd : create_device ctxAddr ctx.devices.length c with
      | error e => simp
      | ok dev =>
        intro h
        refine ih _ _ h ?_
        intro i hi
        have hlen : ctx.devices.length + 1 =
            (ctx.devices ++ [dev]).length := by simp
        by_cases hlt : i < ctx.devices.length
        · have : (ctx.devices ++ [dev]).get ⟨i, hi⟩ =
              ctx.devices.get ⟨i, hlt⟩ := by
            simp [List.getElem_append_left hlt]
          rw [this]
          exact hinv i hlt
        · have hieq : i = ctx.devices.length := by
            have := hi
            simp at this
            omega
          obtain ⟨hctx, hchn⟩ := create_device_fields _ _ _ _ hd
          have : (ctx.devices ++ [dev]).get ⟨i, hi⟩ = dev := by
            subst hieq
            simp
          rw [this, hieq]
          exact ⟨hctx, hchn⟩
    · rw [ctxChildren, if_neg hc] at h
      exact ih _ _ h hinv

/-! ### Supporting lemmas: crash-freedom under valued properties -/

/-- A device property scan over a list with no "id" property and valued
"name" properties succeeds and leaves `id` untouched. -/
theorem devProps_no_id (l : List XmlAttr) (dev : iio_device)
    (hno : ∀ a ∈ l, a.name ≠ "id") (hnv : namesValued l) :
    devProps dev l = Except.ok { dev with
      name := lastProp "name" dev.name l } := by
  have hok : devPropsOk l := by
    intro a ha hcase
    rcases hcase with hn | hi
    · exact hnv a ha hn
    · exact absurd hi (hno a ha)
  rw [devProps_ok _ _ hok, lastProp_no_key _ _ hno]

/-- The collector scan never crashes when the "name" properties are valued
(no other property value is read). -/
theorem scanAttrName_noCrash (l : List XmlAttr) (acc : Option String)
    (h : namesValued l) :
    scanAttrName acc l ≠ Except.error PErr.crash := by
  rw [scanAttrName_ok _ _ h]
  intro hc
  cases hc

/-- The channel child loop never crashes when every "attribute" child has
valued "name" properties; a missing name yields the orderly failure, not a
crash. -/
theorem chanChildren_noCrash (cs : List XmlNode) :
    ∀ chn : iio_channel,
    (∀ c ∈ cs, c.name = "attribute" → namesValued c.properties) →
    chanChildren chn cs ≠ Except.error PErr.crash := by
  induction cs with
  | nil => intro chn _ hc; cases hc
  | cons c rest ih =>
    intro chn h
    have hr : ∀ b ∈ rest, b.name = "attribute" → namesValued b.properties :=
      fun b hb => h b (List.mem_cons_of_mem c hb)
    by_cases hc : c.name = "attribute"
    · have hv := h c (List.mem_cons_self c rest) hc
      rw [chanChildren, if_pos hc, add_attr_to_channel,
          scanAttrName_ok _ _ hv]
      cases lastProp "name" none c.properties with
      | none => simp
      | some v =>
        simp only []
        have : ¬((0 : Int) < 0) := by norm_num
        simp [this]
        exact ih _ hr
    · rw [chanChildren, if_neg hc]
      exact ih _ hr

/-- The channel builder never crashes when every property of the node and of
its "attribute" children is valued. -/
theorem create_channel_noCrash (d : Nat) (n : XmlNode)
    (hv : ∀ a ∈ n.properties, a.content.isSome)
    (hcs : ∀ c ∈ n.children, ∀ a ∈ c.properties, a.content.isSome) :
    create_channel d n ≠ Except.error PErr.crash := by
  rw [create_channel, chanProps_ok _ _ hv]
  by_cases hi :
      (lastProp "id" (none : Option String) n.properties).isNone
  · simp [hi]
  · simp only [hi, Bool.false_eq_true, if_false]
    exact chanChildren_noCrash _ _ fun c hc _ a ha _ => hcs c hc a ha

/-- The device child loop never crashes when every property of every child
and grandchild is valued. -/
theorem devChildren_noCrash (cs : List XmlNode) (s : Nat) :
    ∀ dev : iio_device,
    (∀ c ∈ cs, (∀ a ∈ c.properties, a.content.isSome) ∧
               ∀ e ∈ c.children, ∀ a ∈ e.properties, a.content.isSome) →
    devChildren s dev cs ≠ Except.error PErr.crash := by
  induction cs with
  | nil => intro dev _ hc; cases hc
  | cons c rest ih =>
    intro dev h
    have hr : ∀ b ∈ rest, (∀ a ∈ b.properties, a.content.isSome) ∧
        ∀ e ∈ b.children, ∀ a ∈ e.properties, a.content.isSome :=
      fun b hb => h b (List.mem_cons_of_mem c hb)
    obtain ⟨hcv, hccv⟩ := h c (List.mem_cons_self c rest)
    by_cases hc : c.name = "channel"
    · rw [devChildren, if_pos hc]
      cases hcc : create_channel s c with
      | error e =>
        cases e with
        | crash => exact absurd hcc (create_channel_noCrash s c hcv hccv)
        | fail => intro hx; cases hx
      | ok chn => exact ih _ hr
    · by_cases ha : c.name = "attribute"
      · rw [devChildren, if_neg hc, if_pos ha, add_attr_to_device,
            scanAttrName_ok _ _ fun a hm _ => hcv a hm]
        cases lastProp "name" none c.properties with
        | none => simp
        | some v =>
          simp only []
          have : ¬((0 : Int) < 0) := by norm_num
          simp [this]
          exact ih _ hr
      · rw [devChildren, if_neg hc, if_neg ha]
        exact ih _ hr

/-- The device builder never crashes when every property of the node, of its
children and of its grandchildren is valued. -/
theorem create_device_noCrash (g s : Nat) (n : XmlNode)
    (hv : ∀ a ∈ n.properties, a.content.isSome)
    (hcs : ∀ c ∈ n.children, (∀ a ∈ c.properties, a.content.isSome) ∧
           ∀ e ∈ c.children, ∀ a ∈ e.properties, a.content.isSome) :
    create_device g s n ≠ Except.error PErr.crash := by
  rw [create_device, devProps_ok _ _ fun a ha _ => hv a ha]
  by_cases hi :
      (lastProp "id" (none : Option String) n.properties).isNone
  · simp [hi]
  · simp only [hi, Bool.false_eq_true, if_false]
    exact devChildren_noCrash _ _ _ hcs

/-- The context child loop never crashes on a fully valued document. -/
theorem ctxChildren_noCrash (cs : List XmlNode) :
    ∀ ctx : iio_context,
    (∀ c ∈ cs, (∀ a ∈ c.properties, a.content.isSome) ∧
        ∀ d ∈ c.children, (∀ a ∈ d.properties, a.content.isSome) ∧
          ∀ e ∈ d.children, ∀ a ∈ e.properties, a.content.isSome) →
    ctxChildren ctx cs ≠ Except.error PErr.crash := by
  induction cs with
  | nil => intro ctx _ hc; cases hc
  | cons c rest ih =>
    intro ctx h
    have hr := fun b hb => h b (List.mem_cons_of_mem c hb)
    obtain ⟨hcv, hccv⟩ := h c (List.mem_cons_self c rest)
    by_cases hc : c.name = "device"
    · rw [ctxChildren, if_pos hc]
      cases hcd : create_device ctxAddr ctx.devices.length c with
      | error e =>
        cases e with
        | crash =>
          exact absurd hcd
            (create_device_noCrash ctxAddr ctx.devices.length c hcv hccv)
        | fail => intro hx; cases hx
      | ok dev => exact ih _ hr
    · rw [ctxChildren, if_neg hc]
      exact ih _ hr

/-! ### Supporting lemmas: skipping unrecognized content -/

/-- The context child loop over a concatenation runs the second part from
the first part's result. -/
theorem ctxChildren_append (l1 l2 : List XmlNode) :
    ∀ ctx : iio_context, ctxChildren ctx (l1 ++ l2) =
      match ctxChildren ctx l1 with
      | Except.ok c => ctxChildren c l2
      | Except.error e => Except.error e := by
  induction l1 with
  | nil => intro ctx; simp [ctxChildren]
  | cons c rest ih =>
    intro ctx
    by_cases hc : c.name = "device"
    · rw [List.cons_append, ctxChildren, if_pos hc, ctxChildren, if_pos hc]
      cases create_device ctxAddr ctx.devices.length c with
      | error e => rfl
      | ok dev => exact ih _
    · rw [List.cons_append, ctxChildren, if_neg hc, ctxChildren, if_neg hc]
      exact ih _

/-- The device child loop over a concatenation runs the second part from the
first part's result. -/
theorem devChildren_append (s : Nat) (l1 l2 : List XmlNode) :
    ∀ dev : iio_device, devChildren s dev (l1 ++ l2) =
      match devChildren s dev l1 with
      | Except.ok d => devChildren s d l2
      | Except.error e => Except.error e := by
  induction l1 with
  | nil => intro dev; simp [devChildren]
  | cons c rest ih =>
    intro dev
    by_cases hc : c.name = "channel"
    · rw [List.cons_append, devChildren, if_pos hc, devChildren, if_pos hc]
      cases create_channel s c with
      | error e => rfl
      | ok chn => exact ih _
    · by_cases ha : c.name = "attribute"
      · rw [List.cons_append, devChildren, if_neg hc, if_pos ha,
            devChildren, if_neg hc, if_pos ha]
        cases add_attr_to_device dev c with
        | error e => rfl
        | ok p =>
          obtain ⟨r, dev1⟩ := p
          by_cases hr : r < 0
          · simp [hr]
          · simp [hr]
            exact ih _
      · rw [List.cons_append, devChildren, if_neg hc, if_neg ha,
            devChildren, if_neg hc, if_neg ha]
        exact ih _

/-- The channel child loop over a concatenation runs the second part from
the first part's result. -/
theorem chanChildren_append (l1 l2 : List XmlNode) :
    ∀ chn : iio_channel, chanChildren chn (l1 ++ l2) =
      match chanChildren chn l1 with
      | Except.ok c => chanChildren c l2
      | Except.error e => Except.error e := by
  induction l1 with
  | nil => intro chn; simp [chanChildren]
  | cons c rest ih =>
    intro chn
    by_cases hc : c.name = "attribute"
    · rw [List.cons_append, chanChildren, if_pos hc, chanChildren, if_pos hc]
      cases add_attr_to_channel chn c with
      | error e => rfl
      | ok p =>
        obtain ⟨r, chn1⟩ := p
        by_cases hr : r < 0
        · simp [hr]
        · simp [hr]
          exact ih _
    · rw [List.cons_append, chanChildren, if_neg hc, chanChildren, if_neg hc]
      exact ih _

/-- The channel property scan over a concatenation runs the second part from
the first part's result. -/
theorem chanProps_append (l1 l2 : List XmlAttr) :
    ∀ chn : iio_channel, chanProps chn (l1 ++ l2) =
      match chanProps chn l1 with
      | Except.ok c => chanProps c l2
      | Except.error e => Except.error e := by
  induction l1 with
  | nil => intro chn; simp [chanProps]
  | cons a rest ih =>
    intro chn
    cases hc : a.content with
    | none => simp [chanProps, readContent, hc]
    | some c =>
      by_cases hn : a.name = "name"
      · simp only [List.cons_append, chanProps, readContent, hc, hn, if_pos]
        exact ih _
      · by_cases hi : a.name = "id"
        · simp only [List.cons_append, chanProps, readContent, hc, hn, hi,
                     if_false, if_pos, if_neg, not_false_iff]
          exact ih _
        · by_cases ht : a.name = "type"
          · by_cases ho : c = "output"
            · simp only [List.cons_append, chanProps, readContent, hc, hn, hi,
                         ht, ho, if_false, if_pos, if_neg, not_false_iff]
              exact ih _
            · simp only [List.cons_append, chanProps, readContent, hc, hn, hi,
                         ht, ho, if_false, if_pos, if_neg, not_false_iff]
              exact ih _
          · simp only [List.cons_append, chanProps, readContent, hc, hn, hi,
                       ht, if_false, if_neg, not_false_iff]
            exact ih _

/-- The device property scan over a concatenation runs the second part from
the first part's result. -/
theorem devProps_append (l1 l2 : List XmlAttr) :
    ∀ dev : iio_device, devProps dev (l1 ++ l2) =
      match devProps dev l1 with
      | Except.ok d => devProps d l2
      | Except.error e => Except.error e := by
  induction l1 with
  | nil => intro dev; simp [devProps]
  | cons a rest ih =>
    intro dev
    by_cases hn : a.name = "name"
    · cases hc : a.content with
      | none => simp [devProps, readContent, hc, hn]
      | some c =>
        simp only [List.cons_append, devProps, readContent, hc, hn, if_pos]
        exact ih _
    · by_cases hi : a.name = "id"
      · cases hc : a.content with
        | none => simp [devProps, readContent, hc, hn, hi]
        | some c =>
          simp only [List.cons_append, devProps, readContent, hc, hn, hi,
                     if_false, if_pos, if_neg, not_false_iff]
          exact ih _
      · simp only [List.cons_append, devProps, hn, hi, if_false, if_neg,
                   not_false_iff]
        exact ih _

/-- The collector scan over a concatenation runs the second part from the
first part's result. -/
theorem scanAttrName_append (l1 l2 : List XmlAttr) :
    ∀ acc, scanAttrName acc (l1 ++ l2) =
      match scanAttrName acc l1 with
      | Except.ok o => scanAttrName o l2
      | Except.error e => Except.error e := by
  induction l1 with
  | nil => intro acc; simp [scanAttrName]
  | cons a rest ih =>
    intro acc
    by_cases hn : a.name = "name"
    · cases hc : a.content with
      | none => simp [scanAttrName, readContent, hc, hn]
      | some c =>
        simp only [List.cons_append, scanAttrName, readContent, hc, hn, if_pos]
        exact ih _
    · simp only [List.cons_append, scanAttrName, hn, if_false, if_neg,
                 not_false_iff]
      exact ih _

/-- A non-"device" child is skipped by the context child loop. -/
theorem ctxChildren_skip (ctx : iio_context) (x : XmlNode) (rest : List XmlNode)
    (h : x.name ≠ "device") : ctxChildren ctx (x :: rest) = ctxChildren ctx rest := by
  rw [ctxChildren, if_neg h]

/-- A non-"channel", non-"attribute" child is skipped by the device child
loop. -/
theorem devChildren_skip (s : Nat) (dev : iio_device) (x : XmlNode)
    (rest : List XmlNode) (h1 : x.name ≠ "channel") (h2 : x.name ≠ "attribute") :
    devChildren s dev (x :: rest) = devChildren s dev rest := by
  rw [devChildren, if_neg h1, if_neg h2]

/-- A non-"attribute" child is skipped by the channel child loop. -/
theorem chanChildren_skip (chn : iio_channel) (x : XmlNode) (rest : List XmlNode)
    (h : x.name ≠ "attribute") : chanChildren chn (x :: rest) = chanChildren chn rest := by
  rw [chanChildren, if_neg h]

/-- A valued property that is neither "name" nor "id" nor "type" is skipped
by the channel property scan (its value is still dereferenced first, so the
value node must exist). -/
theorem chanProps_skip (chn : iio_channel) (a : XmlAttr) (rest : List XmlAttr)
    (h1 : a.name ≠ "name") (h2 : a.name ≠ "id") (h3 : a.name ≠ "type")
    (c : String) (hc : a.content = some c) :
    chanProps chn (a :: rest) = chanProps chn rest := by
  simp [chanProps, readContent, hc, h1, h2, h3]

/-- A property that is neither "name" nor "id" is skipped by the device
property scan without its value ever being read. -/
theorem devProps_skip (dev : iio_device) (a : XmlAttr) (rest : List XmlAttr)
    (h1 : a.name ≠ "name") (h2 : a.name ≠ "id") :
    devProps dev (a :: rest) = devProps dev rest := by
  rw [devProps, if_neg h1, if_neg h2]

/-- A property not named "name" is skipped by the collector scan without its
value ever being read. -/
theorem scanAttrName_skip (acc : Option String) (a : XmlAttr) (rest : List XmlAttr)
    (h : a.name ≠ "name") : scanAttrName acc (a :: rest) = scanAttrName acc rest := by
  rw [scanAttrName, if_neg h]

/-- Inserting a non-"device" child anywhere under the root leaves the helper
result unchanged. -/
theorem helper_insert_child (t : String) (ps : List XmlAttr)
    (pre post : List XmlNode) (x : XmlNode) (hx : x.name ≠ "device") :
    iio_create_xml_context_helper ⟨XmlNode.node t ps (pre ++ x :: post)⟩ =
    iio_create_xml_context_helper ⟨XmlNode.node t ps (pre ++ post)⟩ := by
  simp only [iio_create_xml_context_helper, XmlNode.name, XmlNode.children]
  by_cases ht : t = "context"
  · rw [if_pos ht, if_pos ht, ctxChildren_append, ctxChildren_append]
    cases ctxChildren { name := "xml", devices := [] } pre with
    | error e => rfl
    | ok c => exact ctxChildren_skip c x post hx
  · rw [if_neg ht, if_neg ht]

/-- Inserting a non-"channel", non-"attribute" child anywhere under a device
node leaves the device builder result unchanged. -/
theorem create_device_insert_child (g s : Nat) (t : String) (ps : List XmlAttr)
    (pre post : List XmlNode) (x : XmlNode)
    (h1 : x.name ≠ "channel") (h2 : x.name ≠ "attribute") :
    create_device g s (XmlNode.node t ps (pre ++ x :: post)) =
    create_device g s (XmlNode.node t ps (pre ++ post)) := by
  simp only [create_device, XmlNode.properties, XmlNode.children]
  cases devProps { ctx := g } ps with
  | error e => rfl
  | ok dev =>
    by_cases hi : dev.id.isNone
    · simp [hi]
    · simp only [hi, Bool.false_eq_true, if_false]
      rw [devChildren_append, devChildren_append]
      cases devChildren s dev pre with
      | error e => rfl
      | ok d => exact devChildren_skip s d x post h1 h2

/-- Inserting a non-"attribute" child anywhere under a channel node leaves
the channel builder result unchanged. -/
theorem create_channel_insert_child (d : Nat) (t : String) (ps : List XmlAttr)
    (pre post : List XmlNode) (x : XmlNode) (hx : x.name ≠ "attribute") :
    create_channel d (XmlNode.node t ps (pre ++ x :: post)) =
    create_channel d (XmlNode.node t ps (pre ++ post)) := by
  simp only [create_channel, XmlNode.properties, XmlNode.children]
  cases chanProps { dev := d } ps with
  | error e => rfl
  | ok chn =>
    by_cases hi : chn.id.isNone
    · simp [hi]
    · simp only [hi, Bool.false_eq_true, if_false]
      rw [chanChildren_append, chanChildren_append]
      cases chanChildren chn pre with
      | error e => rfl
      | ok c => exact chanChildren_skip c x post hx

/-- Inserting an unrecognized valued property anywhere on a channel node
leaves the channel builder result unchanged. -/
theorem create_channel_insert_prop (d : Nat) (t : String) (cs : List XmlNode)
    (p1 p2 : List XmlAttr) (a : XmlAttr)
    (h1 : a.name ≠ "name") (h2 : a.name ≠ "id") (h3 : a.name ≠ "type")
    (c : String) (hc : a.content = some c) :
    create_channel d (XmlNode.node t (p1 ++ a :: p2) cs) =
    create_channel d (XmlNode.node t (p1 ++ p2) cs) := by
  simp only [create_channel, XmlNode.properties, XmlNode.children]
  rw [chanProps_append, chanProps_append]
  cases chanProps { dev := d } p1 with
  | error e => rfl
  | ok chn => simp only [chanProps_skip chn a p2 h1 h2 h3 c hc]

/-- Inserting an unrecognized property anywhere on a device node leaves the
device builder result unchanged (the device scan never reads its value). -/
theorem create_device_insert_prop (g s : Nat) (t : String) (cs : List XmlNode)
    (p1 p2 : List XmlAttr) (a : XmlAttr)
    (h1 : a.name ≠ "name") (h2 : a.name ≠ "id") :
    create_device g s (XmlNode.node t (p1 ++ a :: p2) cs) =
    create_device g s (XmlNode.node t (p1 ++ p2) cs) := by
  simp only [create_device, XmlNode.properties, XmlNode.children]
  rw [devProps_append, devProps_append]
  cases devProps { ctx := g } p1 with
  | error e => rfl
  | ok dev => simp only [devProps_skip dev a p2 h1 h2]

/-- Inserting a property not named "name" anywhere on an attribute node
leaves the channel collector result unchanged. -/
theorem add_attr_to_channel_insert_prop (chn : iio_channel) (t : String)
    (cs : List XmlNode) (p1 p2 : List XmlAttr) (a : XmlAttr)
    (h : a.name ≠ "name") :
    add_attr_to_channel chn (XmlNode.node t (p1 ++ a :: p2) cs) =
    add_attr_to_channel chn (XmlNode.node t (p1 ++ p2) cs) := by
  simp only [add_attr_to_channel, XmlNode.properties]
  rw [scanAttrName_append, scanAttrName_append]
  cases scanAttrName none p1 with
  | error e => rfl
  | ok o => simp only [scanAttrName_skip o a p2 h]

/-- Inserting a property not named "name" anywhere on an attribute node
leaves the device collector result unchanged. -/
theorem add_attr_to_device_insert_prop (dev : iio_device) (t : String)
    (cs : List XmlNode) (p1 p2 : List XmlAttr) (a : XmlAttr)
    (h : a.name ≠ "name") :
    add_attr_to_device dev (XmlNode.node t (p1 ++ a :: p2) cs) =
    add_attr_to_device dev (XmlNode.node t (p1 ++ p2) cs) := by
  simp only [add_attr_to_device, XmlNode.properties]
  rw [scanAttrName_append, scanAttrName_append]
  cases scanAttrName none p1 with
  | error e => rfl
  | ok o => simp only [scanAttrName_skip o a p2 h]

/-- A "device" child accepted by the device builder appends its device, at
the next free index, and the loop continues. -/
theorem ctxChildren_cons_dev (ctx : iio_context) (c : XmlNode) (rest : List XmlNode)
    (hc : c.name = "device") (hok : devNodeOk c) :
    ctxChildren ctx (c :: rest) =
      ctxChildren { ctx with
        devices := ctx.devices ++ [devOf ctxAddr ctx.devices.length c] } rest := by
  rw [ctxChildren, if_pos hc, create_device_ok _ _ _ hok]

/-- A "device" child rejected by the device builder aborts the whole context
loop with the orderly failure. -/
theorem ctxChildren_cons_fail (ctx : iio_context) (c : XmlNode) (rest : List XmlNode)
    (hc : c.name = "device")
    (hfail : create_device ctxAddr ctx.devices.length c = Except.error PErr.fail) :
    ctxChildren ctx (c :: rest) = Except.error PErr.fail := by
  rw [ctxChildren, if_pos hc, hfail]

/-! ### The claims -/

/-- Claim C1: a document whose root holds a well-formed device child followed
by a device child lacking an "id" property yields no result from the helper
and from both entry points: the failure of the later sibling discards the
earlier successfully built device, and the caller never sees a partial
one-device context. (The second device's "name" properties must be valued,
for its property scan reads exactly those.) -/
theorem claim_C1 (doc : xmlDoc) (n1 n2 : XmlNode) (rest : List XmlNode)
    (hroot : doc.root.name = "context")
    (hcs : doc.root.children = n1 :: n2 :: rest)
    (h1 : n1.name = "device") (h1ok : devNodeOk n1)
    (h2 : n2.name = "device")
    (h2noid : ∀ a ∈ n2.properties, a.name ≠ "id")
    (h2names : namesValued n2.properties) :
    iio_create_xml_context_helper doc = Except.error PErr.fail ∧
    iio_create_xml_context (some doc) =
      (Except.error PErr.fail, [Ev.helperCall, Ev.freeDoc]) ∧
    iio_create_xml_context_mem (some doc) =
      (Except.error PErr.fail, [Ev.helperCall, Ev.freeDoc]) := by
  have h2fail : ∀ s, create_device ctxAddr s n2 = Except.error PErr.fail := by
    intro s
    rw [create_device, devProps_no_id _ _ h2noid h2names]
    simp
  have hh : iio_create_xml_context_helper doc = Except.error PErr.fail := by
    rw [iio_create_xml_context_helper, if_pos hroot, hcs,
        ctxChildren_cons_dev _ _ _ h1 h1ok,
        ctxChildren_cons_fail _ _ _ h2 (h2fail _)]
  refine ⟨hh, ?_, ?_⟩
  · simp [iio_create_xml_context, hh]
  · simp [iio_create_xml_context_mem, hh]

/-- Closed instance of claim C1 on the two-device document `exDocC1`. -/
theorem claim_C1_witness :
    iio_create_xml_context_helper exDocC1 = Except.error PErr.fail :=
  (claim_C1 exDocC1 (XmlNode.node "device" [⟨"id", some "dev0"⟩] [])
    (XmlNode.node "device" [⟨"name", some "orphan"⟩] []) []
    rfl rfl rfl (by decide) rfl (by decide) (by decide)).1

/-- Claim C3: a document whose root tag is not exactly "context" fails from
the helper and from both entry points with no result; the conclusion holds
for every property list and child list under such a root, so no device child
is ever processed. -/
theorem claim_C3 (doc : xmlDoc) (h : doc.root.name ≠ "context") :
    iio_create_xml_context_helper doc = Except.error PErr.fail ∧
    iio_create_xml_context (some doc) =
      (Except.error PErr.fail, [Ev.helperCall, Ev.freeDoc]) ∧
    iio_create_xml_context_mem (some doc) =
      (Except.error PErr.fail, [Ev.helperCall, Ev.freeDoc]) := by
  have hh : iio_create_xml_context_helper doc = Except.error PErr.fail := by
    rw [iio_create_xml_context_helper, if_neg h]
  exact ⟨hh, by simp [iio_create_xml_context, hh],
         by simp [iio_create_xml_context_mem, hh]⟩

/-- Closed instance of claim C3 on `exDocC3`, whose root tag "Context"
differs from "context" only by case and which contains a well-formed
device child. -/
theorem claim_C3_witness :
    iio_create_xml_context_helper exDocC3 = Except.error PErr.fail ∧
    iio_create_xml_context (some exDocC3) =
      (Except.error PErr.fail, [Ev.helperCall, Ev.freeDoc]) ∧
    iio_create_xml_context_mem (some exDocC3) =
      (Except.error PErr.fail, [Ev.helperCall, Ev.freeDoc]) :=
  claim_C3 exDocC3 (by decide)

/-- Claim C4: with the parser call abstracted by its result, both entry
points return no result on parse failure without invoking the context
builder; on parse success they delegate to the builder and, whether it
succeeds or fails in an orderly way, release the parsed document exactly
once; and an entry point returns a context only when the builder produced
exactly that context, so no failure ever surfaces a partial context. -/
theorem claim_C4 (doc : xmlDoc)
    (hnc : iio_create_xml_context_helper doc ≠ Except.error PErr.crash) :
    iio_create_xml_context none = (Except.error PErr.fail, []) ∧
    iio_create_xml_context_mem none = (Except.error PErr.fail, []) ∧
    iio_create_xml_context (some doc) =
      (iio_create_xml_context_helper doc, [Ev.helperCall, Ev.freeDoc]) ∧
    iio_create_xml_context_mem (some doc) =
      (iio_create_xml_context_helper doc, [Ev.helperCall, Ev.freeDoc]) ∧
    (iio_create_xml_context (some doc)).2.count Ev.freeDoc = 1 ∧
    (iio_create_xml_context_mem (some doc)).2.count Ev.freeDoc = 1 ∧
    (∀ p ctx, (iio_create_xml_context p).1 = Except.ok ctx →
        ∃ d, p = some d ∧ iio_create_xml_context_helper d = Except.ok ctx) ∧
    (∀ p ctx, (iio_create_xml_context_mem p).1 = Except.ok ctx →
        ∃ d, p = some d ∧ iio_create_xml_context_helper d = Except.ok ctx) := by
  have hmain : iio_create_xml_context (some doc) =
      (iio_create_xml_context_helper doc, [Ev.helperCall, Ev.freeDoc]) := by
    rw [iio_create_xml_context]
    cases hr : iio_create_xml_context_helper doc with
    | ok c => rfl
    | error e =>
      cases e with
      | crash => exact absurd hr hnc
      | fail => rfl
  have hmem : iio_create_xml_context_mem (some doc) =
      (iio_create_xml_context_helper doc, [Ev.helperCall, Ev.freeDoc]) := by
    rw [iio_create_xml_context_mem]
    cases hr : iio_create_xml_context_helper doc with
    | ok c => rfl
    | error e =>
      cases e with
      | crash => exact absurd hr hnc
      | fail => rfl
  have hsound : ∀ p ctx, (iio_create_xml_context p).1 = Except.ok ctx →
      ∃ d, p = some d ∧ iio_create_xml_context_helper d = Except.ok ctx := by
    intro p ctx h
    cases p with
    | none => simp [iio_create_xml_context] at h
    | some d =>
      refine ⟨d, rfl, ?_⟩
      revert h
      rw [iio_create_xml_context]
      cases hr : iio_create_xml_context_helper d with
      | ok c => intro h; simpa using h
      | error e => cases e <;> (intro h; simp at h)
  have hsound' : ∀ p ctx, (iio_create_xml_context_mem p).1 = Except.ok ctx →
      ∃ d, p = some d ∧ iio_create_xml_context_helper d = Except.ok ctx := by
    intro p ctx h
    cases p with
    | none => simp [iio_create_xml_context_mem] at h
    | some d =>
      refine ⟨d, rfl, ?_⟩
      revert h
      rw [iio_create_xml_context_mem]
      cases hr : iio_create_xml_context_helper d with
      | ok c => intro h; simpa using h
      | error e => cases e <;> (intro h; simp at h)
  exact ⟨rfl, rfl, hmain, hmem, by rw [hmain]; rfl, by rw [hmem]; rfl,
         hsound, hsound'⟩

/-- Closed instance of claim C4 on the well-formed document `exDocA`. -/
theorem claim_C4_witness :
    iio_create_xml_context (some exDocA) =
      (iio_create_xml_context_helper exDocA, [Ev.helperCall, Ev.freeDoc]) ∧
    (iio_create_xml_context (some exDocA)).2.count Ev.freeDoc = 1 :=
  ⟨(claim_C4 exDocA (by decide)).2.2.1, (claim_C4 exDocA (by decide)).2.2.2.2.1⟩

/-- The collected attribute-name list has one entry per "attribute" child. -/
theorem attrNamesOf_length (cs : List XmlNode) :
    (attrNamesOf cs).length = (attrNodesOf cs).length := by
  induction cs with
  | nil => rfl
  | cons c rest ih =>
    by_cases hc : c.name = "attribute"
    · simp [attrNamesOf, attrNodesOf, List.filter_cons, hc, ih]
    · simp [attrNamesOf, attrNodesOf, List.filter_cons, hc, ih]

/-- The k-th collected attribute name is the last-"name" value of the k-th
"attribute" child. -/
theorem attrNamesOf_get (cs : List XmlNode) :
    ∀ k (hk : k < (attrNamesOf cs).length) (hk' : k < (attrNodesOf cs).length),
    (attrNamesOf cs).get ⟨k, hk⟩ =
      (lastProp "name" none ((attrNodesOf cs).get ⟨k, hk'⟩).properties).getD "" := by
  induction cs with
  | nil => intro k hk _; simp [attrNamesOf] at hk
  | cons c rest ih =>
    intro k hk hk'
    by_cases hc : c.name = "attribute"
    · have hnl : attrNamesOf (c :: rest) =
          ((lastProp "name" none c.properties).getD "") :: attrNamesOf rest := by
        simp [attrNamesOf, hc]
      have hfl : attrNodesOf (c :: rest) = c :: attrNodesOf rest := by
        simp [attrNodesOf, List.filter_cons, hc]
      cases k with
      | zero =>
        rw [List.get_of_eq hnl ⟨0, hk⟩, List.get_of_eq hfl ⟨0, hk'⟩]
        simp
      | succ k' =>
        rw [List.get_of_eq hnl ⟨k' + 1, hk⟩, List.get_of_eq hfl ⟨k' + 1, hk'⟩]
        have hlen : (attrNamesOf (c :: rest)).length =
            (attrNamesOf rest).length + 1 := by
          rw [hnl]; rfl
        have hlen' : (attrNodesOf (c :: rest)).length =
            (attrNodesOf rest).length + 1 := by
          rw [hfl]; rfl
        have hk2 : k' < (attrNamesOf rest).length := by omega
        have hk2' : k' < (attrNodesOf rest).length := by omega
        have hrec := ih k' hk2 hk2'
        simp only [List.get_eq_getElem, List.getElem_cons_succ]
        simp only [List.get_eq_getElem] at hrec
        rw [hrec]
    · have hnl : attrNamesOf (c :: rest) = attrNamesOf rest := by
        simp [attrNamesOf, hc]
      have hfl : attrNodesOf (c :: rest) = attrNodesOf rest := by
        simp [attrNodesOf, List.filter_cons, hc]
      rw [List.get_of_eq hnl ⟨k, hk⟩, List.get_of_eq hfl ⟨k, hk'⟩]
      exact ih k _ _

/-- Claim C2: on a well-formed document the helper succeeds, the context has
one device per "device" child of the root, in document order (the i-th
device is exactly what the device builder returns on the i-th "device"
child); each device has one channel per "channel" child, in document order
(the j-th channel is what the channel builder returns on the j-th "channel"
child), and one attribute per "attribute" child, in document order (the
collector applied to the k-th "attribute" child appends exactly the k-th
attribute entry, for any owner); and each channel has one attribute per
"attribute" child of its node, again in document order through the
collector. -/
theorem claim_C2 (doc : xmlDoc) (h : docOk doc) :
    ∃ ctx : iio_context, iio_create_xml_context_helper doc = Except.ok ctx ∧
      ctx.devices.length = (devNodesOf doc.root.children).length ∧
      ∀ i (hi : i < ctx.devices.length)
        (hi' : i < (devNodesOf doc.root.children).length),
        create_device ctxAddr i ((devNodesOf doc.root.children).get ⟨i, hi'⟩) =
          Except.ok (ctx.devices.get ⟨i, hi⟩) ∧
        (ctx.devices.get ⟨i, hi⟩).channels.length =
          (chanNodesOf ((devNodesOf doc.root.children).get ⟨i, hi'⟩).children).length ∧
        (ctx.devices.get ⟨i, hi⟩).attrs.length =
          (attrNodesOf ((devNodesOf doc.root.children).get ⟨i, hi'⟩).children).length ∧
        (∀ k (hk : k < (ctx.devices.get ⟨i, hi⟩).attrs.length)
          (hk' : k < (attrNodesOf ((devNodesOf doc.root.children).get
              ⟨i, hi'⟩).children).length) (dev0 : iio_device),
          add_attr_to_device dev0 ((attrNodesOf ((devNodesOf doc.root.children).get
              ⟨i, hi'⟩).children).get ⟨k, hk'⟩) =
            Except.ok (0, { dev0 with attrs := dev0.attrs ++
              [(ctx.devices.get ⟨i, hi⟩).attrs.get ⟨k, hk⟩] })) ∧
        ∀ j (hj : j < (ctx.devices.get ⟨i, hi⟩).channels.length)
          (hj' : j < (chanNodesOf ((devNodesOf doc.root.children).get
              ⟨i, hi'⟩).children).length),
          create_channel i ((chanNodesOf ((devNodesOf doc.root.children).get
              ⟨i, hi'⟩).children).get ⟨j, hj'⟩) =
            Except.ok ((ctx.devices.get ⟨i, hi⟩).channels.get ⟨j, hj⟩) ∧
          ((ctx.devices.get ⟨i, hi⟩).channels.get ⟨j, hj⟩).attrs.length =
            (attrNodesOf ((chanNodesOf ((devNodesOf doc.root.children).get
                ⟨i, hi'⟩).children).get ⟨j, hj'⟩).children).length ∧
          ∀ k (hk : k < ((ctx.devices.get ⟨i, hi⟩).channels.get
              ⟨j, hj⟩).attrs.length)
            (hk' : k < (attrNodesOf ((chanNodesOf ((devNodesOf doc.root.children).get
                ⟨i, hi'⟩).children).get ⟨j, hj'⟩).children).length)
            (chn0 : iio_channel),
            add_attr_to_channel chn0 ((attrNodesOf ((chanNodesOf
                ((devNodesOf doc.root.children).get ⟨i, hi'⟩).children).get
                ⟨j, hj'⟩).children).get ⟨k, hk'⟩) =
              Except.ok (0, { chn0 with attrs := chn0.attrs ++
                [((ctx.devices.get ⟨i, hi⟩).channels.get ⟨j, hj⟩).attrs.get
                  ⟨k, hk⟩] }) := by
  refine ⟨{ name := "xml", devices := devsOf 0 doc.root.children },
          helper_ok doc h, by simp [devsOf_length], ?_⟩
  intro i hi hi'
  have hi2 : i < (devsOf 0 doc.root.children).length := hi
  have hget := devsOf_get doc.root.children 0 i hi2 hi'
  rw [Nat.zero_add] at hget
  have hdn_mem : (devNodesOf doc.root.children).get ⟨i, hi'⟩ ∈
      List.filter (fun c => c.name == "device") doc.root.children := by
    exact List.get_mem (devNodesOf doc.root.children) i hi'
  obtain ⟨hdn_in, hdn_name⟩ := List.mem_filter.mp hdn_mem
  have hdnOk : devNodeOk ((devNodesOf doc.root.children).get ⟨i, hi'⟩) :=
    h.2 _ hdn_in (by simpa using hdn_name)
  have hdv : ({ name := "xml", devices := devsOf 0 doc.root.children } :
      iio_context).devices.get ⟨i, hi⟩ =
      devOf ctxAddr i ((devNodesOf doc.root.children).get ⟨i, hi'⟩) := hget
  rw [hdv]
  refine ⟨create_device_ok ctxAddr i _ hdnOk, by simp [devOf],
          by simp [devOf, attrNamesOf_length], ?_, ?_⟩
  · intro k hk hk' dev0
    have hm : (attrNodesOf ((devNodesOf doc.root.children).get
        ⟨i, hi'⟩).children).get ⟨k, hk'⟩ ∈
        List.filter (fun c => c.name == "attribute")
          ((devNodesOf doc.root.children).get ⟨i, hi'⟩).children := by
      exact List.get_mem (attrNodesOf ((devNodesOf doc.root.children).get
        ⟨i, hi'⟩).children) k hk'
    obtain ⟨hin, hname⟩ := List.mem_filter.mp hm
    have hok : attrNodeOk ((attrNodesOf ((devNodesOf doc.root.children).get
        ⟨i, hi'⟩).children).get ⟨k, hk'⟩) :=
      hdnOk.2.2.2 _ hin (by simpa using hname)
    rw [add_attr_to_device_ok dev0 _ hok]
    have hk2 : k < (attrNamesOf ((devNodesOf doc.root.children).get
        ⟨i, hi'⟩).children).length := hk
    have hval := attrNamesOf_get ((devNodesOf doc.root.children).get
        ⟨i, hi'⟩).children k hk2 hk'
    exact congrArg (fun v => Except.ok ((0 : Int),
      { dev0 with attrs := dev0.attrs ++ [v] })) hval.symm
  · intro j hj hj'
    have hcn_mem : (chanNodesOf ((devNodesOf doc.root.children).get
        ⟨i, hi'⟩).children).get ⟨j, hj'⟩ ∈
        List.filter (fun c => c.name == "channel")
          ((devNodesOf doc.root.children).get ⟨i, hi'⟩).children := by
      exact List.get_mem (chanNodesOf ((devNodesOf doc.root.children).get
        ⟨i, hi'⟩).children) j hj'
    obtain ⟨hcn_in, hcn_name⟩ := List.mem_filter.mp hcn_mem
    have hcnOk : chnNodeOk ((chanNodesOf ((devNodesOf doc.root.children).get
        ⟨i, hi'⟩).children).get ⟨j, hj'⟩) :=
      hdnOk.2.2.1 _ hcn_in (by simpa using hcn_name)
    have hchan : (devOf ctxAddr i ((devNodesOf doc.root.children).get
        ⟨i, hi'⟩)).channels.get ⟨j, hj⟩ =
        chanOf i ((chanNodesOf ((devNodesOf doc.root.children).get
          ⟨i, hi'⟩).children).get ⟨j, hj'⟩) := by
      simp only [devOf, List.get_eq_getElem, List.getElem_map]
    rw [hchan]
    refine ⟨create_channel_ok i _ hcnOk,
            by simp [chanOf, attrNamesOf_length], ?_⟩
    intro k hk hk' chn0
    have hm : (attrNodesOf ((chanNodesOf ((devNodesOf doc.root.children).get
        ⟨i, hi'⟩).children).get ⟨j, hj'⟩).children).get ⟨k, hk'⟩ ∈
        List.filter (fun c => c.name == "attribute")
          ((chanNodesOf ((devNodesOf doc.root.children).get
            ⟨i, hi'⟩).children).get ⟨j, hj'⟩).children := by
      exact List.get_mem (attrNodesOf ((chanNodesOf
        ((devNodesOf doc.root.children).get ⟨i, hi'⟩).children).get
        ⟨j, hj'⟩).children) k hk'
    obtain ⟨hin, hname⟩ := List.mem_filter.mp hm
    have hok : attrNodeOk ((attrNodesOf ((chanNodesOf
        ((devNodesOf doc.root.children).get ⟨i, hi'⟩).children).get
        ⟨j, hj'⟩).children).get ⟨k, hk'⟩) :=
      hcnOk.2.2 _ hin (by simpa using hname)
    rw [add_attr_to_channel_ok chn0 _ hok]
    have hk2 : k < (attrNamesOf ((chanNodesOf
        ((devNodesOf doc.root.children).get ⟨i, hi'⟩).children).get
        ⟨j, hj'⟩).children).length := hk
    have hval := attrNamesOf_get ((chanNodesOf
        ((devNodesOf doc.root.children).get ⟨i, hi'⟩).children).get
        ⟨j, hj'⟩).children k hk2 hk'
    exact congrArg (fun v => Except.ok ((0 : Int),
      { chn0 with attrs := chn0.attrs ++ [v] })) hval.symm

/-- Closed instance of claim C2 on the concrete scenario-A document. -/
theorem claim_C2_witness :
    docOk exDocA ∧
    ∃ ctx : iio_context,
      iio_create_xml_context_helper exDocA = Except.ok ctx ∧
        ctx.devices.length = (devNodesOf exDocA.root.children).length :=
  ⟨by decide, (claim_C2 exDocA (by decide)).elim
    fun ctx hc => ⟨ctx, hc.1, hc.2.1⟩⟩

/-- `hasOutputType` restricted to the "type" properties. -/
theorem hasOutputType_eq (l : List XmlAttr) :
    hasOutputType l = (List.filter (fun a => a.name == "type") l).any
      (fun a => a.content == some "output") := by
  induction l with
  | nil => rfl
  | cons a rest ih =>
    by_cases ht : a.name = "type"
    · simp [hasOutputType, List.filter_cons, ht, ih]
    · have hf : (a.name == "type") = false := by simp [ht]
      simp [hasOutputType, List.filter_cons, hf, ih]

/-- Claim C5: for any successfully built channel, no "type" property means
direction input (`is_output = false`); a single "type" property with value
"output" means output; a single "type" property with any other value falls
back to input (non-fatally: the channel was still built). -/
theorem claim_C5 (d : Nat) (n : XmlNode) (chn : iio_channel)
    (h : create_channel d n = Except.ok chn) :
    (List.filter (fun a => a.name == "type") n.properties = [] →
      chn.is_output = false) ∧
    (∀ a : XmlAttr, List.filter (fun a => a.name == "type") n.properties = [a] →
      ((a.content = some "output" → chn.is_output = true) ∧
       (∀ v, a.content = some v → v ≠ "output" → chn.is_output = false))) := by
  obtain ⟨_, ho, _, _⟩ := create_channel_fields d n chn h
  rw [hasOutputType_eq] at ho
  constructor
  · intro hf
    rw [hf] at ho
    simpa using ho
  · intro a hf
    rw [hf] at ho
    constructor
    · intro hc
      rw [ho]
      simp [hc]
    · intro v hc hne
      rw [ho]
      simp [hc, hne]

/-- Closed instance of claim C5: a channel whose "type" value is "garbage"
still builds, with direction input. -/
theorem claim_C5_witness :
    create_channel 0 exChnNode = Except.ok exChn ∧ exChn.is_output = false :=
  ⟨by decide, ((claim_C5 0 exChnNode exChn (by decide)).2
      ⟨"type", some "garbage"⟩ (by decide)).2 "garbage" rfl (by decide)⟩

/-- Claim C6: a collector call on a node with no "name" property fails with
the -1 code and leaves the owner's attribute list untouched; a call on a
node with a (valued) "name" property succeeds and grows the list by exactly
one name, appended at the end — whether or not that name already occurs. -/
theorem claim_C6 :
    (∀ (chn : iio_channel) (n : XmlNode), (∀ a ∈ n.properties, a.name ≠ "name") →
      add_attr_to_channel chn n = Except.ok (-1, chn)) ∧
    (∀ (dev : iio_device) (n : XmlNode), (∀ a ∈ n.properties, a.name ≠ "name") →
      add_attr_to_device dev n = Except.ok (-1, dev)) ∧
    (∀ (chn : iio_channel) (n : XmlNode), attrNodeOk n →
      ∃ v, add_attr_to_channel chn n =
        Except.ok (0, { chn with attrs := chn.attrs ++ [v] })) ∧
    (∀ (dev : iio_device) (n : XmlNode), attrNodeOk n →
      ∃ v, add_attr_to_device dev n =
        Except.ok (0, { dev with attrs := dev.attrs ++ [v] })) :=
  ⟨fun chn n h => add_attr_to_channel_none chn n h,
   fun dev n h => add_attr_to_device_none dev n h,
   fun chn n h => ⟨_, add_attr_to_channel_ok chn n h⟩,
   fun dev n h => ⟨_, add_attr_to_device_ok dev n h⟩⟩

/-- Closed instance of claim C6: a nameless attribute node is rejected with
-1 and the channel is returned untouched. -/
theorem claim_C6_witness :
    add_attr_to_channel { dev := 0 } (XmlNode.node "attribute" [⟨"foo", none⟩] []) =
      Except.ok (-1, { dev := 0 }) :=
  claim_C6.1 { dev := 0 } (XmlNode.node "attribute" [⟨"foo", none⟩] []) (by decide)

/-- `create_device` records the last "name" and "id" property occurrences. -/
theorem create_device_scan_fields (g s : Nat) (n : XmlNode) (dev : iio_device)
    (h : create_device g s n = Except.ok dev) :
    dev.name = lastProp "name" none n.properties ∧
    dev.id = lastProp "id" none n.properties := by
  revert h
  rw [create_device]
  cases hp : devProps { ctx := g } n.properties with
  | error e => simp
  | ok dev1 =>
    intro h
    by_cases hi : dev1.id.isNone
    · simp [hi] at h
    · simp [hi] at h
      obtain ⟨_, _, _, hn1, hi1⟩ := devProps_fields _ _ _ hp
      obtain ⟨_, hid, hnm, _⟩ := devChildren_fields _ _ _ _ h
      exact ⟨hnm.trans hn1, hid.trans hi1⟩

/-- Claim C7: when a property name occurs more than once on one node, the
last occurrence wins silently. Stated for every occurrence pattern
`l1 ++ a :: l2` with no later occurrence in `l2`: the collector appends the
last "name" value, a built channel records the last "name" and "id" values,
and a built device records the last "name" and "id" values. -/
theorem claim_C7 :
    (∀ (chn : iio_channel) (n : XmlNode) (l1 l2 : List XmlAttr) (a : XmlAttr)
      (v : String), n.properties = l1 ++ a :: l2 → a.name = "name" →
      (∀ b ∈ l2, b.name ≠ "name") → namesValued n.properties →
      a.content = some v →
      add_attr_to_channel chn n =
        Except.ok (0, { chn with attrs := chn.attrs ++ [v] })) ∧
    (∀ (dev : iio_device) (n : XmlNode) (l1 l2 : List XmlAttr) (a : XmlAttr)
      (v : String), n.properties = l1 ++ a :: l2 → a.name = "name" →
      (∀ b ∈ l2, b.name ≠ "name") → namesValued n.properties →
      a.content = some v →
      add_attr_to_device dev n =
        Except.ok (0, { dev with attrs := dev.attrs ++ [v] })) ∧
    (∀ (d : Nat) (n : XmlNode) (chn : iio_channel) (l1 l2 : List XmlAttr)
      (a : XmlAttr), create_channel d n = Except.ok chn →
      n.properties = l1 ++ a :: l2 → a.name = "name" →
      (∀ b ∈ l2, b.name ≠ "name") → chn.name = a.content) ∧
    (∀ (d : Nat) (n : XmlNode) (chn : iio_channel) (l1 l2 : List XmlAttr)
      (a : XmlAttr), create_channel d n = Except.ok chn →
      n.properties = l1 ++ a :: l2 → a.name = "id" →
      (∀ b ∈ l2, b.name ≠ "id") → chn.id = a.content) ∧
    (∀ (g s : Nat) (n : XmlNode) (dev : iio_device) (l1 l2 : List XmlAttr)
      (a : XmlAttr), create_device g s n = Except.ok dev →
      n.properties = l1 ++ a :: l2 → a.name = "name" →
      (∀ b ∈ l2, b.name ≠ "name") → dev.name = a.content) ∧
    (∀ (g s : Nat) (n : XmlNode) (dev : iio_device) (l1 l2 : List XmlAttr)
      (a : XmlAttr), create_device g s n = Except.ok dev →
      n.properties = l1 ++ a :: l2 → a.name = "id" →
      (∀ b ∈ l2, b.name ≠ "id") → dev.id = a.content) := by
  refine ⟨?_, ?_, ?_, ?_, ?_, ?_⟩
  · intro chn n l1 l2 a v hsplit ha hl2 hv hav
    have hmem : a ∈ n.properties := by
      rw [hsplit]
      exact List.mem_append_right _ (List.mem_cons_self a l2)
    have hlast : lastProp "name" none n.properties = some v := by
      rw [hsplit, lastProp_last _ _ _ _ ha hl2, hav]
    simp [add_attr_to_channel_ok chn n ⟨⟨a, hmem, ha⟩, hv⟩, hlast]
  · intro dev n l1 l2 a v hsplit ha hl2 hv hav
    have hmem : a ∈ n.properties := by
      rw [hsplit]
      exact List.mem_append_right _ (List.mem_cons_self a l2)
    have hlast : lastProp "name" none n.properties = some v := by
      rw [hsplit, lastProp_last _ _ _ _ ha hl2, hav]
    simp [add_attr_to_device_ok dev n ⟨⟨a, hmem, ha⟩, hv⟩, hlast]
  · intro d n chn l1 l2 a hcc hsplit ha hl2
    obtain ⟨_, _, hname, _⟩ := create_channel_fields d n chn hcc
    rw [hname, hsplit, lastProp_last _ _ _ _ ha hl2]
  · intro d n chn l1 l2 a hcc hsplit ha hl2
    obtain ⟨_, _, _, hid⟩ := create_channel_fields d n chn hcc
    rw [hid, hsplit, lastProp_last _ _ _ _ ha hl2]
  · intro g s n dev l1 l2 a hcd hsplit ha hl2
    obtain ⟨hname, _⟩ := create_device_scan_fields g s n dev hcd
    rw [hname, hsplit, lastProp_last _ _ _ _ ha hl2]
  · intro g s n dev l1 l2 a hcd hsplit ha hl2
    obtain ⟨_, hid⟩ := create_device_scan_fields g s n dev hcd
    rw [hid, hsplit, lastProp_last _ _ _ _ ha hl2]

/-- Closed instance of claim C7: with "name" given twice on a channel node,
the built channel records the second value. -/
theorem claim_C7_witness :
    create_channel 0 exDupNode = Except.ok exDupChn ∧
    exDupChn.name = some "second" :=
  ⟨by decide, by
    exact claim_C7.2.2.1 0 exDupNode exDupChn
      [⟨"id", some "x"⟩, ⟨"name", some "first"⟩] [] ⟨"name", some "second"⟩
      (by decide) rfl rfl (by decide)⟩

/-- Counterexample to claim C8 as stated: `exDocC8bad` extends the
well-formed `exDocC8` by one unrecognized property on the channel node whose
value node is absent (libxml2's representation of an empty value). Building
it dereferences the missing value node — the crash outcome — instead of
succeeding with the unchanged context. -/
theorem claim_C8_counterexample :
    iio_create_xml_context_helper exDocC8 = Except.ok exCtxC8 ∧
    iio_create_xml_context_helper exDocC8bad = Except.error PErr.crash ∧
    iio_create_xml_context_helper exDocC8bad ≠
      iio_create_xml_context_helper exDocC8 :=
  ⟨by decide, by decide, by decide⟩

/-- Claim C8 as amended: inserting an unrecognized child element anywhere
(under the root, a device node or a channel node) leaves the built result
unchanged, and so does inserting an unrecognized property, provided a
property inserted on a channel node carries a value node — the channel
property scan dereferences every property value, so a valueless one is
undefined behavior rather than a tolerated unknown. -/
theorem claim_C8_amended :
    (∀ (t : String) (ps : List XmlAttr) (pre post : List XmlNode) (x : XmlNode),
      x.name ≠ "device" →
      iio_create_xml_context_helper ⟨XmlNode.node t ps (pre ++ x :: post)⟩ =
      iio_create_xml_context_helper ⟨XmlNode.node t ps (pre ++ post)⟩) ∧
    (∀ (g s : Nat) (t : String) (ps : List XmlAttr) (pre post : List XmlNode)
      (x : XmlNode), x.name ≠ "channel" → x.name ≠ "attribute" →
      create_device g s (XmlNode.node t ps (pre ++ x :: post)) =
      create_device g s (XmlNode.node t ps (pre ++ post))) ∧
    (∀ (d : Nat) (t : String) (ps : List XmlAttr) (pre post : List XmlNode)
      (x : XmlNode), x.name ≠ "attribute" →
      create_channel d (XmlNode.node t ps (pre ++ x :: post)) =
      create_channel d (XmlNode.node t ps (pre ++ post))) ∧
    (∀ (g s : Nat) (t : String) (cs : List XmlNode) (p1 p2 : List XmlAttr)
      (a : XmlAttr), a.name ≠ "name" → a.name ≠ "id" →
      create_device g s (XmlNode.node t (p1 ++ a :: p2) cs) =
      create_device g s (XmlNode.node t (p1 ++ p2) cs)) ∧
    (∀ (d : Nat) (t : String) (cs : List XmlNode) (p1 p2 : List XmlAttr)
      (a : XmlAttr) (c : String), a.name ≠ "name" → a.name ≠ "id" →
      a.name ≠ "type" → a.content = some c →
      create_channel d (XmlNode.node t (p1 ++ a :: p2) cs) =
      create_channel d (XmlNode.node t (p1 ++ p2) cs)) ∧
    (∀ (chn : iio_channel) (t : String) (cs : List XmlNode)
      (p1 p2 : List XmlAttr) (a : XmlAttr), a.name ≠ "name" →
      add_attr_to_channel chn (XmlNode.node t (p1 ++ a :: p2) cs) =
      add_attr_to_channel chn (XmlNode.node t (p1 ++ p2) cs)) ∧
    (∀ (dev : iio_device) (t : String) (cs : List XmlNode)
      (p1 p2 : List XmlAttr) (a : XmlAttr), a.name ≠ "name" →
      add_attr_to_device dev (XmlNode.node t (p1 ++ a :: p2) cs) =
      add_attr_to_device dev (XmlNode.node t (p1 ++ p2) cs)) :=
  ⟨fun t ps pre post x hx => helper_insert_child t ps pre post x hx,
   fun g s t ps pre post x h1 h2 => create_device_insert_child g s t ps pre post x h1 h2,
   fun d t ps pre post x hx => create_channel_insert_child d t ps pre post x hx,
   fun g s t cs p1 p2 a h1 h2 => create_device_insert_prop g s t cs p1 p2 a h1 h2,
   fun d t cs p1 p2 a c h1 h2 h3 hc => create_channel_insert_prop d t cs p1 p2 a h1 h2 h3 c hc,
   fun chn t cs p1 p2 a h => add_attr_to_channel_insert_prop chn t cs p1 p2 a h,
   fun dev t cs p1 p2 a h => add_attr_to_device_insert_prop dev t cs p1 p2 a h⟩

/-- Closed instance of the amended claim C8: a junk element inserted before
the device of `exDocC8` leaves the built context unchanged. -/
theorem claim_C8_amended_witness :
    iio_create_xml_context_helper
      ⟨XmlNode.node "context" []
        [XmlNode.node "junk" [] [],
         XmlNode.node "device" [⟨"id", some "dev0"⟩]
           [XmlNode.node "channel" [⟨"id", some "voltage0"⟩] []]]⟩ =
    iio_create_xml_context_helper exDocC8 := by
  exact claim_C8_amended.1 "context" [] []
    [XmlNode.node "device" [⟨"id", some "dev0"⟩]
      [XmlNode.node "channel" [⟨"id", some "voltage0"⟩] []]]
    (XmlNode.node "junk" [] []) (by decide)

/-- Claim C9: every channel the channel builder returns stores the requested
owner address, every device the device builder returns stores the requested
context address and hands its own address to all its channels, and in every
successfully built context the i-th device points back to the context
address while all its channels point back to device i. The first two parts
hold for every node whatsoever, which is how the functional model expresses
that the back-references are set before any fallible work and never
reassigned. -/
theorem claim_C9 :
    (∀ (d : Nat) (n : XmlNode) (chn : iio_channel),
      create_channel d n = Except.ok chn → chn.dev = d) ∧
    (∀ (g s : Nat) (n : XmlNode) (dev : iio_device),
      create_device g s n = Except.ok dev →
      dev.ctx = g ∧ ∀ chn ∈ dev.channels, chn.dev = s) ∧
    (∀ (doc : xmlDoc) (ctx : iio_context),
      iio_create_xml_context_helper doc = Except.ok ctx →
      ∀ i (hi : i < ctx.devices.length),
        (ctx.devices.get ⟨i, hi⟩).ctx = ctxAddr ∧
        ∀ chn ∈ (ctx.devices.get ⟨i, hi⟩).channels, chn.dev = i) := by
  refine ⟨?_, ?_, ?_⟩
  · intro d n chn h
    exact (create_channel_fields d n chn h).1
  · intro g s n dev h
    exact create_device_fields g s n dev h
  · intro doc ctx h
    rw [iio_create_xml_context_helper] at h
    by_cases hr : doc.root.name = "context"
    · rw [if_pos hr] at h
      refine ctxChildren_inv _ _ _ h ?_
      intro i hi
      exact absurd hi (by simp)
    · rw [if_neg hr] at h
      cases h

/-- Closed instance of claim C9 on the scenario-A document. -/
theorem claim_C9_witness :
    iio_create_xml_context_helper exDocA = Except.ok exCtxA ∧
    (exCtxA.devices.get ⟨0, by decide⟩).ctx = ctxAddr :=
  ⟨by decide, (claim_C9.2.2 exDocA exCtxA (by decide) 0 (by decide)).1⟩

/-- Claim C10: the builders dereference a property's value node without a
presence check — a valueless property is exactly the crash outcome of
`readContent` — but on any document in which every reachable property
carries a value, no call can reach that outcome: collectors, the channel
and device builders, the helper and both entry points never produce the
crash. -/
theorem claim_C10 :
    (∀ a : XmlAttr, a.content = none →
      readContent a = Except.error PErr.crash) ∧
    (∀ (chn : iio_channel) (n : XmlNode), nodeValued n →
      add_attr_to_channel chn n ≠ Except.error PErr.crash) ∧
    (∀ (dev : iio_device) (n : XmlNode), nodeValued n →
      add_attr_to_device dev n ≠ Except.error PErr.crash) ∧
    (∀ (d : Nat) (n : XmlNode), nodeValued n →
      (∀ c ∈ n.children, nodeValued c) →
      create_channel d n ≠ Except.error PErr.crash) ∧
    (∀ (g s : Nat) (n : XmlNode), nodeValued n →
      (∀ c ∈ n.children, nodeValued c) →
      (∀ c ∈ n.children, ∀ e ∈ c.children, nodeValued e) →
      create_device g s n ≠ Except.error PErr.crash) ∧
    (∀ doc : xmlDoc, docValued doc →
      iio_create_xml_context_helper doc ≠ Except.error PErr.crash) ∧
    (∀ doc : xmlDoc, docValued doc →
      (iio_create_xml_context (some doc)).1 ≠ Except.error PErr.crash) ∧
    (∀ doc : xmlDoc, docValued doc →
      (iio_create_xml_context_mem (some doc)).1 ≠ Except.error PErr.crash) := by
  have hhelper : ∀ doc : xmlDoc, docValued doc →
      iio_create_xml_context_helper doc ≠ Except.error PErr.crash := by
    intro doc hv
    obtain ⟨h1, h2, h3⟩ := hv
    rw [iio_create_xml_context_helper]
    by_cases hr : doc.root.name = "context"
    · rw [if_pos hr]
      refine ctxChildren_noCrash _ _ ?_
      intro c hc
      exact ⟨h1 c hc, fun d hd =>
        ⟨h2 c hc d hd, fun e he a ha => h3 c hc d hd e he a ha⟩⟩
    · rw [if_neg hr]
      intro hx
      cases hx
  refine ⟨?_, ?_, ?_, ?_, ?_, hhelper, ?_, ?_⟩
  · intro a h
    rw [readContent, h]
  · intro chn n hv
    rw [add_attr_to_channel, scanAttrName_ok _ _ fun a ha _ => hv a ha]
    cases lastProp "name" none n.properties <;> simp
  · intro dev n hv
    rw [add_attr_to_device, scanAttrName_ok _ _ fun a ha _ => hv a ha]
    cases lastProp "name" none n.properties <;> simp
  · intro d n hv hcs
    exact create_channel_noCrash d n hv fun c hc a ha => hcs c hc a ha
  · intro g s n hv hcs hgs
    exact create_device_noCrash g s n hv fun c hc =>
      ⟨hcs c hc, fun e he a ha => hgs c hc e he a ha⟩
  · intro doc hv
    rw [iio_create_xml_context]
    cases hr : iio_create_xml_context_helper doc with
    | ok c => simp
    | error e =>
      cases e with
      | crash => exact absurd hr (hhelper doc hv)
      | fail => simp
  · intro doc hv
    rw [iio_create_xml_context_mem]
    cases hr : iio_create_xml_context_helper doc with
    | ok c => simp
    | error e =>
      cases e with
      | crash => exact absurd hr (hhelper doc hv)
      | fail => simp

/-- Closed instance of claim C10 on the scenario-A document. -/
theorem claim_C10_witness :
    docValued exDocA ∧
    iio_create_xml_context_helper exDocA ≠ Except.error PErr.crash :=
  ⟨by decide, claim_C10.2.2.2.2.2.1 exDocA (by decide)⟩
